import Mathlib

set_option maxHeartbeats 1600000

deriving instance DecidableEq for Except

/-!
Verification development for the multilingual-programming-language toolchain
(lexer → parser → bytecode compiler → virtual machine) of the Capstone
repository.  The TypeScript sources `src/compiler/lexer.ts` (shipped as
`src/unnamed/part_002`), `src/compiler/parser.ts`, `src/compiler/bytecode.ts`,
`src/compiler/ast.ts` (shipped as the second file inside
`src/unnamed/part_001`, after the host page source) and
`src/language/definitions.ts` (shipped as `src/unnamed/part_003`) are
embedded shallowly below; JavaScript runtime values are modelled by the
`MLang.Value` type, with numbers represented as rationals (exact on the
decimal/integer values that the specified programs compute; IEEE-754 rounding
is outside the model and is not exercised by any claim).

Recursions that the source expresses as unbounded loops (the lexer scan, the
recursive-descent parser, the AST-walking code generator and the VM fetch
loop) are embedded with an explicit fuel parameter so that every definition
is executable inside the kernel; the entry points pass fuel that provably
suffices for the inputs considered (for the compiler, any input).
-/

namespace MLang

/-- Runtime values of the virtual machine, mirroring the JavaScript values
that flow through `VirtualMachine` in `bytecode.ts`: numbers (with `nan` for
IEEE NaN, other numbers modelled as rationals), strings, booleans, `null`,
and `undefined` (which JavaScript produces e.g. when popping an empty
array). -/
inductive Value where
  | num (q : ℚ)
  | nan
  | str (s : String)
  | bool (b : Bool)
  | null
  | undefined
deriving DecidableEq, Repr

/-- Rational addition by cross multiplication (kernel-computable form of
`Rat` addition). -/
def qadd (a b : ℚ) : ℚ := mkRat (a.num * b.den + b.num * a.den) (a.den * b.den)

/-- Rational subtraction by cross multiplication. -/
def qsub (a b : ℚ) : ℚ := mkRat (a.num * b.den - b.num * a.den) (a.den * b.den)

/-- Rational multiplication. -/
def qmul (a b : ℚ) : ℚ := mkRat (a.num * b.num) (a.den * b.den)

/-- Rational division (callers guard the zero divisor). -/
def qdiv (a b : ℚ) : ℚ :=
  if b.num < 0 then mkRat (-(a.num * b.den)) (a.den * b.num.natAbs)
  else mkRat (a.num * b.den) (a.den * b.num.natAbs)

/-- Rational strict order by cross multiplication (denominators are
positive). -/
def qlt (a b : ℚ) : Bool := a.num * b.den < b.num * a.den

/-- Rational non-strict order by cross multiplication. -/
def qle (a b : ℚ) : Bool := a.num * b.den ≤ b.num * a.den

/-- Truncation of a rational toward zero, as JavaScript `Math.trunc` /
the implicit truncation in the `%` operator. -/
def qtrunc (q : ℚ) : Int := Int.tdiv q.num q.den

/-- Decimal digits of a natural number, most significant first (fuel-bounded
division loop; `fuel ≥ n` suffices). -/
def natDigitsAux : Nat → Nat → List Char
  | 0, _ => []
  | _ + 1, 0 => []
  | fuel + 1, n => natDigitsAux fuel (n / 10) ++ [Char.ofNat (48 + n % 10)]

/-- Decimal rendering of a natural number. -/
def natToStr (n : Nat) : String :=
  if n = 0 then "0" else String.mk (natDigitsAux (n + 1) n)

/-- Decimal rendering of an integer. -/
def intToStr : Int → String
  | .ofNat n => natToStr n
  | .negSucc n => "-" ++ natToStr (n + 1)

/-- Decimal rendering of a natural number left-padded with zeros to a given
width. -/
def natToStrPad (n width : Nat) : String :=
  let s := natToStr n
  String.mk (List.replicate (width - s.length) '0') ++ s

/-- JavaScript `String()` conversion of a number.  Exact for integers and for
rationals whose denominator divides a power of ten (every value the claimed
programs stringify is an integer, `NaN`, or such a finite decimal); rationals
with an infinite decimal expansion (unreachable in the claims) are rendered
as a fraction. -/
def numToString (q : ℚ) : String :=
  if q.den = 1 then intToStr q.num
  else
    match (List.range 40).find? (fun k => 10 ^ (k + 1) % q.den = 0) with
    | some k =>
        let p := 10 ^ (k + 1)
        let scaled := q.num.natAbs * (p / q.den)
        (if q.num < 0 then "-" else "") ++
          natToStr (scaled / p) ++ "." ++ natToStrPad (scaled % p) (k + 1)
    | none => intToStr q.num ++ "/" ++ natToStr q.den

/-- JavaScript `String()` conversion of a runtime value, as used by the
`PRINT` instruction (`String(arg)`). -/
def jsToString : Value → String
  | .num q => numToString q
  | .nan => "NaN"
  | .str s => s
  | .bool true => "true"
  | .bool false => "false"
  | .null => "null"
  | .undefined => "undefined"

/-- Is the character an ASCII decimal digit or a dot?  (The character class
`[0-9.]` of `Lexer.readNumber`.) -/
def isNumChar (c : Char) : Bool := c.isDigit || c = '.'

/-- Character-list whitespace trim (kernel-computable stand-in for the
whitespace trimming in JavaScript `ToNumber`; only reachable when a string
is coerced to a number, which no claimed program does). -/
def trimChars (cs : List Char) : List Char :=
  ((cs.dropWhile Char.isWhitespace).reverse.dropWhile Char.isWhitespace).reverse

/-- Numeric value of a list of decimal digit characters. -/
def digitsToNat (cs : List Char) : Nat :=
  cs.foldl (fun acc c => acc * 10 + (c.toNat - 48)) 0

/-- Decimal-literal core of JavaScript string→number coercion: an optional
integer part, optionally followed by `.` and a fraction part, matching the
whole remaining input (hex/exponent forms are not produced by this language's
lexer and are outside the model). -/
def parseDecCore (cs : List Char) : Option ℚ :=
  let ip := cs.takeWhile Char.isDigit
  let rest := cs.drop ip.length
  match rest with
  | [] => if ip.isEmpty then none else some (mkRat (digitsToNat ip) 1)
  | '.' :: r =>
      let fp := r.takeWhile Char.isDigit
      if (r.drop fp.length).isEmpty && !(ip.isEmpty && fp.isEmpty) then
        some (mkRat (digitsToNat ip * 10 ^ fp.length + digitsToNat fp) (10 ^ fp.length))
      else none
  | _ => none

/-- JavaScript `ToNumber` on a string: trimmed empty string is `0`, otherwise
an optionally signed decimal literal matching the whole string, else NaN
(`none`). -/
def jsStringToNumber (s : String) : Option ℚ :=
  match trimChars s.data with
  | [] => some 0
  | '-' :: r => (parseDecCore r).map (fun q => -q)
  | '+' :: r => parseDecCore r
  | cs => parseDecCore cs

/-- JavaScript `parseFloat` as `Parser.primary` applies it to `NUMBER`
lexemes: the longest valid decimal prefix of the string is converted and any
trailing characters (for example a second dot) are silently ignored; NaN
only if no prefix is numeric.  `NUMBER` lexemes always start with a digit,
so the sign/whitespace/exponent handling of full `parseFloat` is not
exercised and is outside the model. -/
def jsParseFloat (s : String) : Value :=
  let cs := s.data
  let ip := cs.takeWhile Char.isDigit
  match cs.drop ip.length with
  | '.' :: r =>
      let fp := r.takeWhile Char.isDigit
      if ip.isEmpty && fp.isEmpty then .nan
      else .num (mkRat (digitsToNat ip * 10 ^ fp.length + digitsToNat fp) (10 ^ fp.length))
  | _ => if ip.isEmpty then .nan else .num (mkRat (digitsToNat ip) 1)

/-- JavaScript `ToNumber` of a runtime value; `none` models NaN. -/
def jsToNumber : Value → Option ℚ
  | .num q => some q
  | .nan => none
  | .str s => jsStringToNumber s
  | .bool b => some (if b then 1 else 0)
  | .null => some 0
  | .undefined => none

/-- JavaScript `+`: if either operand is a string, both are converted to text
and concatenated; otherwise numeric addition (NaN-propagating). -/
def jsAdd (a b : Value) : Value :=
  match a, b with
  | .str _, _ => .str (jsToString a ++ jsToString b)
  | _, .str _ => .str (jsToString a ++ jsToString b)
  | _, _ =>
      match jsToNumber a, jsToNumber b with
      | some x, some y => .num (qadd x y)
      | _, _ => .nan

/-- JavaScript `-` on values. -/
def jsSub (a b : Value) : Value :=
  match jsToNumber a, jsToNumber b with
  | some x, some y => .num (qsub x y)
  | _, _ => .nan

/-- JavaScript `*` on values. -/
def jsMul (a b : Value) : Value :=
  match jsToNumber a, jsToNumber b with
  | some x, some y => .num (qmul x y)
  | _, _ => .nan

/-- JavaScript `/` on values.  The VM only reaches this after its
`div_b === 0` guard; a zero numeric coercion of a non-zero-literal divisor
(which JavaScript would turn into an infinity, a value outside this model
and outside every claim) is mapped to NaN. -/
def jsDiv (a b : Value) : Value :=
  match jsToNumber a, jsToNumber b with
  | some x, some y => if y = 0 then .nan else .num (qdiv x y)
  | _, _ => .nan

/-- JavaScript `%` on values: `x - y * trunc(x / y)`, and NaN when the
right-hand side is zero (this is what `mod_a % mod_b` evaluates to in the VM,
which performs no zero check for `MODULO`). -/
def jsMod (a b : Value) : Value :=
  match jsToNumber a, jsToNumber b with
  | some x, some y =>
      if y = 0 then .nan
      else .num (qsub x (qmul y (mkRat (qtrunc (qdiv x y)) 1)))
  | _, _ => .nan

/-- JavaScript unary `-` on values. -/
def jsNeg (a : Value) : Value :=
  match jsToNumber a with
  | some x => .num (qsub 0 x)
  | none => .nan

/-- JavaScript strict equality `===` restricted to the value types the VM
manipulates (NaN is unequal to everything, including itself). -/
def jsStrictEq : Value → Value → Bool
  | .nan, _ => false
  | _, .nan => false
  | .num a, .num b => a = b
  | .str a, .str b => a = b
  | .bool a, .bool b => a = b
  | .null, .null => true
  | .undefined, .undefined => true
  | _, _ => false

/-- Character-list lexicographic order (kernel-computable form of the
JavaScript string order used by `<` on two strings). -/
def charListLt : List Char → List Char → Bool
  | [], [] => false
  | [], _ :: _ => true
  | _ :: _, [] => false
  | a :: as, b :: bs => if a = b then charListLt as bs else a.toNat < b.toNat

/-- JavaScript `<`: string comparison when both operands are strings,
otherwise numeric comparison in which NaN makes the result false. -/
def jsLess (a b : Value) : Bool :=
  match a, b with
  | .str x, .str y => charListLt x.data y.data
  | _, _ =>
      match jsToNumber a, jsToNumber b with
      | some x, some y => qlt x y
      | _, _ => false

/-- JavaScript `>`. -/
def jsGreater (a b : Value) : Bool :=
  match a, b with
  | .str x, .str y => charListLt y.data x.data
  | _, _ =>
      match jsToNumber a, jsToNumber b with
      | some x, some y => qlt y x
      | _, _ => false

/-- JavaScript `<=`. -/
def jsLessEq (a b : Value) : Bool :=
  match a, b with
  | .str x, .str y => !charListLt y.data x.data
  | _, _ =>
      match jsToNumber a, jsToNumber b with
      | some x, some y => qle x y
      | _, _ => false

/-- JavaScript `>=`. -/
def jsGreaterEq (a b : Value) : Bool :=
  match a, b with
  | .str x, .str y => !charListLt x.data y.data
  | _, _ =>
      match jsToNumber a, jsToNumber b with
      | some x, some y => qle y x
      | _, _ => false

/-- JavaScript truthiness: `false`, `null`, `undefined`, `0`, NaN and the
empty string are falsy. -/
def jsTruthy : Value → Bool
  | .num q => q ≠ 0
  | .nan => false
  | .str s => s ≠ ""
  | .bool b => b
  | .null => false
  | .undefined => false

end MLang

namespace MLang

/-- Token kinds of `lexer.ts` (`TokenType`). -/
inductive TokenType where
  | NUMBER | STRING | IDENTIFIER
  | IF | ELSE | WHILE | FOR | FUNCTION | RETURN | VAR | TRUE | FALSE | NULL
  | ASSIGN | EQUAL | NOT_EQUAL | LESS_THAN | GREATER_THAN | LESS_EQUAL | GREATER_EQUAL
  | PLUS | MINUS | MULTIPLY | DIVIDE | MODULO | AND | OR | NOT
  | LPAREN | RPAREN | LBRACE | RBRACE | SEMICOLON | COMMA
  | NEWLINE | EOF | UNKNOWN
deriving DecidableEq, Repr

/-- Tokens of `lexer.ts` (`Token`): kind, surface text, 1-based line and
column of the first character. -/
structure Token where
  type : TokenType
  value : String
  line : Nat
  column : Nat
deriving DecidableEq, Repr

/-- Language entries of `definitions.ts` (`LanguageDefinition`).  Only the
fields the core toolchain reads are embedded; the `operators`, `builtins` and
`messages` records are UI-only and never consulted by the lexer, parser,
compiler or VM.  The keyword list preserves the object-literal insertion
order, which is the iteration order of `Object.entries` in
`Lexer.getKeywordTokenType`. -/
structure LanguageDefinition where
  name : String
  code : String
  keywords : List (String × String)
deriving DecidableEq, Repr

/-- The `LANGUAGES.english` entry of `definitions.ts`. -/
def english : LanguageDefinition :=
  { name := "English", code := "en",
    keywords :=
      [("if", "if"), ("else", "else"), ("while", "while"), ("for", "for"),
       ("function", "function"), ("return", "return"), ("var", "var"),
       ("true", "true"), ("false", "false"), ("null", "null"),
       ("print", "print"), ("input", "input")] }

/-- The `LANGUAGES.hindi` entry of `definitions.ts`: note that `print` maps
to the surface spelling `print` (not `dikhaao`) and `input` to `input`. -/
def hindi : LanguageDefinition :=
  { name := "हिन्दी", code := "hi",
    keywords :=
      [("if", "agar"), ("else", "nahi_to"), ("while", "jab_tak"), ("for", "ke_liye"),
       ("function", "kaam"), ("return", "wapas"), ("var", "badal"),
       ("true", "sach"), ("false", "jhooth"), ("null", "kuch_nahi"),
       ("print", "print"), ("input", "input")] }

/-- The `LANGUAGES.tamil` entry of `definitions.ts` (its `print` spelling
`achchidu` is one of the two names hard-coded in
`BytecodeGenerator.visitCallExpression`). -/
def tamil : LanguageDefinition :=
  { name := "தமிழ்", code := "ta",
    keywords :=
      [("if", "yenil"), ("else", "illai"), ("while", "varai"), ("for", "ulla"),
       ("function", "seyal"), ("return", "thirumbu"), ("var", "maari"),
       ("true", "unmai"), ("false", "poi"), ("null", "ondrum_illai"),
       ("print", "achchidu"), ("input", "ulle")] }

namespace Lexer

/-- Inner `switch` of `Lexer.getKeywordTokenType`: the canonical keyword name
a matching entry maps to, or `none` for the `print`/`input` entries, which
have no case and fall through. -/
def keywordCase : String → Option TokenType
  | "if" => some .IF
  | "else" => some .ELSE
  | "while" => some .WHILE
  | "for" => some .FOR
  | "function" => some .FUNCTION
  | "return" => some .RETURN
  | "var" => some .VAR
  | "true" => some .TRUE
  | "false" => some .FALSE
  | "null" => some .NULL
  | _ => none

/-- `Lexer.getKeywordTokenType`: walk the language entry's keyword pairs in
insertion order; a surface match whose canonical name has a `switch` case
yields that keyword token, any other lexeme (including a match on the
`print`/`input` entries) is an `IDENTIFIER`. -/
def getKeywordTokenType : List (String × String) → String → TokenType
  | [], _ => .IDENTIFIER
  | (eng, translated) :: rest, value =>
      if value = translated then
        match keywordCase eng with
        | some t => t
        | none => getKeywordTokenType rest value
      else getKeywordTokenType rest value

/-- Position bookkeeping of `Lexer.advance` for one consumed character:
a newline bumps the line and resets the column, anything else bumps the
column. -/
def advancePos (lc : Nat × Nat) (c : Char) : Nat × Nat :=
  if c = '\n' then (lc.1 + 1, 1) else (lc.1, lc.2 + 1)

/-- Position after consuming a list of characters. -/
def posAfter (lc : Nat × Nat) (cs : List Char) : Nat × Nat :=
  cs.foldl advancePos lc

/-- Lexer state: remaining input and current 1-based line/column. -/
structure LexState where
  rest : List Char
  line : Nat
  column : Nat
deriving DecidableEq, Repr

/-- Consume characters through `advancePos`. -/
def consume (st : LexState) (cs : List Char) : LexState :=
  let lc := posAfter (st.line, st.column) cs
  { rest := st.rest.drop cs.length, line := lc.1, column := lc.2 }

/-- Character loop of `Lexer.readNumber`: split off the maximal leading run
of `[0-9.]` characters. -/
def readNumberAux : List Char → List Char × List Char
  | [] => ([], [])
  | c :: rest =>
      if isNumChar c then
        let p := readNumberAux rest
        (c :: p.1, p.2)
      else ([], c :: rest)

/-- `Lexer.readNumber`: emit the maximal `[0-9.]` run as a single `NUMBER`
token (multi-dot lexemes included), positioned at its first character. -/
def readNumber (st : LexState) : Token × LexState :=
  let p := readNumberAux st.rest
  (⟨.NUMBER, String.mk p.1, st.line, st.column⟩, consume st p.1)

/-- Is the character in the identifier-continue class `[a-zA-Z0-9_]`? -/
def isIdentChar (c : Char) : Bool := c.isAlphanum || c = '_'

/-- `Lexer.readIdentifier`: the maximal `[a-zA-Z0-9_]` run, classified
through the language's keyword table. -/
def readIdentifier (lang : LanguageDefinition) (st : LexState) : Token × LexState :=
  let run := st.rest.takeWhile isIdentChar
  (⟨getKeywordTokenType lang.keywords (String.mk run), String.mk run, st.line, st.column⟩,
    consume st run)

/-- Escape mapping of `Lexer.readString`: recognized escapes are translated,
any other escaped character yields itself. -/
def escapeChar : Char → Char
  | 'n' => '\n'
  | 't' => '\t'
  | 'r' => '\r'
  | '\\' => '\\'
  | '"' => '"'
  | '\'' => '\''
  | c => c

/-- Character loop of `Lexer.readString` after the opening quote: collect
value characters until the matching quote (consumed) or the end of input
(an unterminated literal simply ends, as in the source). -/
def readStringAux (quote : Char) : List Char → List Char × List Char
  | [] => ([], [])
  | c :: rest =>
      if c = quote then ([], rest)
      else if c = '\\' then
        match rest with
        | [] => ([], [])
        | e :: r =>
            let p := readStringAux quote r
            (escapeChar e :: p.1, p.2)
      else
        let p := readStringAux quote rest
        (c :: p.1, p.2)

/-- `Lexer.readString`: consume the opening quote, the body and the closing
quote; the token records the column of the opening quote and the line
reached after the literal (as in the source, where `line` is read after the
loop). -/
def readString (st : LexState) : Token × LexState :=
  match st.rest with
  | [] => (⟨.STRING, "", st.line, st.column⟩, st)
  | q :: rest =>
      let p := readStringAux q rest
      let consumedCount := st.rest.length - p.2.length
      let st2 := consume st (st.rest.take consumedCount)
      (⟨.STRING, String.mk p.1, st2.line, st.column⟩, st2)

/-- `Lexer.skipWhitespace`: silently drop spaces, tabs and carriage
returns. -/
def skipWhitespace (st : LexState) : LexState :=
  consume st (st.rest.takeWhile (fun c => c = ' ' || c = '\t' || c = '\r'))

/-- Two-character operator table of `Lexer.tokenize`. -/
def twoCharType (a b : Char) : Option TokenType :=
  match a, b with
  | '=', '=' => some .EQUAL
  | '!', '=' => some .NOT_EQUAL
  | '<', '=' => some .LESS_EQUAL
  | '>', '=' => some .GREATER_EQUAL
  | '&', '&' => some .AND
  | '|', '|' => some .OR
  | _, _ => none

/-- Single-character token table of `Lexer.tokenize`. -/
def oneCharType (c : Char) : Option TokenType :=
  match c with
  | '=' => some .ASSIGN
  | '<' => some .LESS_THAN
  | '>' => some .GREATER_THAN
  | '+' => some .PLUS
  | '-' => some .MINUS
  | '*' => some .MULTIPLY
  | '/' => some .DIVIDE
  | '%' => some .MODULO
  | '!' => some .NOT
  | '(' => some .LPAREN
  | ')' => some .RPAREN
  | '{' => some .LBRACE
  | '}' => some .RBRACE
  | ';' => some .SEMICOLON
  | ',' => some .COMMA
  | '\n' => some .NEWLINE
  | _ => none

/-- Main scan loop of `Lexer.tokenize`.  Every iteration consumes at least
one character, so fuel equal to the input length is enough; the fuel-exhausted
branch is unreachable from `tokenize`. -/
def tokenizeAux (lang : LanguageDefinition) : Nat → LexState → List Token → List Token
  | 0, st, acc => acc.reverse ++ [⟨.EOF, "", st.line, st.column⟩]
  | fuel + 1, st0, acc =>
      let st := skipWhitespace st0
      match st.rest with
      | [] => acc.reverse ++ [⟨.EOF, "", st.line, st.column⟩]
      | c :: rest =>
          if c.isDigit then
            let p := readNumber st
            tokenizeAux lang fuel p.2 (p.1 :: acc)
          else if c = '"' || c = '\'' then
            let p := readString st
            tokenizeAux lang fuel p.2 (p.1 :: acc)
          else if c.isAlpha || c = '_' then
            let p := readIdentifier lang st
            tokenizeAux lang fuel p.2 (p.1 :: acc)
          else
            match rest with
            | c2 :: _ =>
                match twoCharType c c2 with
                | some t =>
                    tokenizeAux lang fuel (consume st [c, c2])
                      (⟨t, String.mk [c, c2], st.line, st.column⟩ :: acc)
                | none =>
                    match oneCharType c with
                    | some t =>
                        tokenizeAux lang fuel (consume st [c])
                          (⟨t, String.mk [c], st.line, st.column⟩ :: acc)
                    | none =>
                        tokenizeAux lang fuel (consume st [c])
                          (⟨.UNKNOWN, String.mk [c], st.line, st.column⟩ :: acc)
            | [] =>
                match oneCharType c with
                | some t =>
                    tokenizeAux lang fuel (consume st [c])
                      (⟨t, String.mk [c], st.line, st.column⟩ :: acc)
                | none =>
                    tokenizeAux lang fuel (consume st [c])
                      (⟨.UNKNOWN, String.mk [c], st.line, st.column⟩ :: acc)

/-- `Lexer.tokenize`: scan the whole source and terminate the stream with a
single `EOF` token. -/
def tokenize (lang : LanguageDefinition) (source : String) : List Token :=
  tokenizeAux lang (source.data.length + 1) ⟨source.data, 1, 1⟩ []

end Lexer

end MLang

namespace MLang

mutual

/-- Statement node classes of `ast.ts` (shipped as the second file inside
`src/unnamed/part_001`): `VarDeclaration(identifier, initializer?)`,
`FunctionDeclaration(name, parameters, body)`, `IfStatement(condition,
thenStatement, elseStatement?)`, `WhileStatement(condition, body)`,
`ForStatement(initializer?, condition?, increment?, body)`,
`ReturnStatement(value?)`, `BlockStatement(statements)` and
`ExpressionStatement(expression)`; `Program` is the statement list at the
top level.  The class hierarchy's double dispatch (`accept`/`ASTVisitor`)
is embedded as a tagged sum consumed by pattern matching, as §9 of the
specification prescribes for reimplementations. -/
inductive Stmt where
  | varDecl (identifier : String) (initializer : Option Expr)
  | funDecl (name : String) (parameters : List String) (body : List Stmt)
  | ifStmt (condition : Expr) (thenStmt : Stmt) (elseStmt : Option Stmt)
  | whileStmt (condition : Expr) (body : Stmt)
  | forStmt (initializer : Option Stmt) (condition : Option Expr)
      (increment : Option Expr) (body : Stmt)
  | returnStmt (value : Option Expr)
  | block (statements : List Stmt)
  | exprStmt (expression : Expr)

/-- Expression node classes of `ast.ts`: `BinaryExpression(left, operator,
right)` with the operator's surface string, `UnaryExpression(operator,
operand)`, `CallExpression(callee, args)`,
`AssignmentExpression(identifier, value)`, `Identifier(name)` and
`Literal(value, type)` — the literal's `type` tag is redundant with the
value and is carried here by the `Value` constructor. -/
inductive Expr where
  | binary (left : Expr) (operator : String) (right : Expr)
  | unary (operator : String) (operand : Expr)
  | call (callee : Expr) (args : List Expr)
  | assign (identifier : String) (value : Expr)
  | ident (name : String)
  | lit (value : Value)

end

namespace Parser

/-- Parser failures: `ParseError(message, token)` of `parser.ts`, plus the
fuel-exhaustion artifact of the embedding (unreachable for the fuel the
entry point supplies to the inputs considered here). -/
inductive ParseFail where
  | err (message : String) (token : Token)
  | fuelOut
deriving DecidableEq, Repr

/-- Fallback token for reads past the end of the stream.  The source's
`peek()` falls back to the last token of the array; the embedding models the
`current` index cursor as the remaining suffix `tokens[current…]`, which is
nonempty until `EOF` is consumed — and `EOF` is never consumed — so on lexer
output (always `EOF`-terminated) the fallback is unreachable. -/
def eofFallback : Token := ⟨.EOF, "", 0, 0⟩

/-- `Parser.peek` on the remaining-suffix cursor. -/
def peekT : List Token → Token
  | [] => eofFallback
  | t :: _ => t

/-- `Parser.isAtEnd`. -/
def isAtEnd (rem : List Token) : Bool :=
  (peekT rem).type == TokenType.EOF

/-- `Parser.check`: never true at `EOF`. -/
def checkT (rem : List Token) (ty : TokenType) : Bool :=
  if isAtEnd rem then false else (peekT rem).type == ty

/-- `Parser.advance`: consume one token unless at `EOF`, and return the
consumed token (the source's `previous()` after the increment).  At `EOF`
the source would return the token before the cursor, which the suffix
embedding does not retain; every call below is guarded by `check`, so that
branch is unreachable. -/
def advanceT : List Token → Token × List Token
  | [] => (eofFallback, [])
  | t :: rest => if t.type == TokenType.EOF then (eofFallback, t :: rest) else (t, rest)

/-- `Parser.match`: consume the current token if its kind is among the given
ones, returning it (the source reads it back via `previous()`). -/
def matchT (rem : List Token) (tys : List TokenType) : Option (Token × List Token) :=
  if tys.any (fun ty => checkT rem ty) then some (advanceT rem) else none

/-- `Parser.consume`: require a token kind or raise a `ParseError` carrying
the offending (peeked) token. -/
def consumeT (rem : List Token) (ty : TokenType) (msg : String) :
    Except ParseFail (Token × List Token) :=
  if checkT rem ty then .ok (advanceT rem) else .error (.err msg (peekT rem))

mutual

/-- `Parser.declaration`. -/
def declaration : Nat → List Token → Except ParseFail (Stmt × List Token)
  | 0, _ => .error .fuelOut
  | fuel + 1, rem =>
      match matchT rem [.VAR] with
      | some (_, rem2) => varDeclaration fuel rem2
      | none =>
          match matchT rem [.FUNCTION] with
          | some (_, rem2) => functionDeclaration fuel rem2
          | none => statement fuel rem
termination_by structural fuel _ => fuel

/-- `Parser.varDeclaration` (the `var` keyword is already consumed). -/
def varDeclaration : Nat → List Token → Except ParseFail (Stmt × List Token)
  | 0, _ => .error .fuelOut
  | fuel + 1, rem =>
      match consumeT rem .IDENTIFIER "Expected variable name" with
      | .error e => .error e
      | .ok (nameTok, rem) =>
          match matchT rem [.ASSIGN] with
          | some (_, rem2) =>
              match expression fuel rem2 with
              | .error e => .error e
              | .ok (init, rem3) =>
                  match consumeT rem3 .SEMICOLON "Expected ';' after variable declaration" with
                  | .error e => .error e
                  | .ok (_, rem4) => .ok (.varDecl nameTok.value (some init), rem4)
          | none =>
              match consumeT rem .SEMICOLON "Expected ';' after variable declaration" with
              | .error e => .error e
              | .ok (_, rem2) => .ok (.varDecl nameTok.value none, rem2)

/-- `Parser.functionDeclaration` (the `function` keyword is already
consumed). -/
def functionDeclaration : Nat → List Token → Except ParseFail (Stmt × List Token)
  | 0, _ => .error .fuelOut
  | fuel + 1, rem =>
      match consumeT rem .IDENTIFIER "Expected function name" with
      | .error e => .error e
      | .ok (nameTok, rem) =>
          match consumeT rem .LPAREN "Expected '(' after function name" with
          | .error e => .error e
          | .ok (_, rem) =>
              let parsedParams : Except ParseFail (List String × List Token) :=
                if checkT rem .RPAREN then .ok ([], rem)
                else paramsLoop fuel rem
              match parsedParams with
              | .error e => .error e
              | .ok (params, rem) =>
                  match consumeT rem .RPAREN "Expected ')' after parameters" with
                  | .error e => .error e
                  | .ok (_, rem) =>
                      match consumeT rem .LBRACE "Expected '\x7b' before function body" with
                      | .error e => .error e
                      | .ok (_, rem) =>
                          match declListUntilRBrace fuel rem with
                          | .error e => .error e
                          | .ok (body, rem) =>
                              match consumeT rem .RBRACE "Expected '\x7d' after function body" with
                              | .error e => .error e
                              | .ok (_, rem) =>
                                  .ok (.funDecl nameTok.value params body, rem)
termination_by structural fuel _ => fuel

/-- Parameter `do … while (match(COMMA))` loop of
`Parser.functionDeclaration`. -/
def paramsLoop : Nat → List Token → Except ParseFail (List String × List Token)
  | 0, _ => .error .fuelOut
  | fuel + 1, rem =>
      match consumeT rem .IDENTIFIER "Expected parameter name" with
      | .error e => .error e
      | .ok (tok, rem) =>
          match matchT rem [.COMMA] with
          | some (_, rem2) =>
              match paramsLoop fuel rem2 with
              | .error e => .error e
              | .ok (rest, rem3) => .ok (tok.value :: rest, rem3)
          | none => .ok ([tok.value], rem)
termination_by structural fuel _ => fuel

/-- Shared `while (!check(RBRACE) && !isAtEnd())` declaration loop of
`Parser.functionDeclaration` and `Parser.blockStatement`. -/
def declListUntilRBrace : Nat → List Token → Except ParseFail (List Stmt × List Token)
  | 0, _ => .error .fuelOut
  | fuel + 1, rem =>
      if !checkT rem .RBRACE && !isAtEnd rem then
        match declaration fuel rem with
        | .error e => .error e
        | .ok (st, rem2) =>
            match declListUntilRBrace fuel rem2 with
            | .error e => .error e
            | .ok (rest, rem3) => .ok (st :: rest, rem3)
      else .ok ([], rem)
termination_by structural fuel _ => fuel

/-- `Parser.statement`. -/
def statement : Nat → List Token → Except ParseFail (Stmt × List Token)
  | 0, _ => .error .fuelOut
  | fuel + 1, rem =>
      match matchT rem [.IF] with
      | some (_, rem2) => ifStatement fuel rem2
      | none =>
          match matchT rem [.WHILE] with
          | some (_, rem2) => whileStatement fuel rem2
          | none =>
              match matchT rem [.FOR] with
              | some (_, rem2) => forStatement fuel rem2
              | none =>
                  match matchT rem [.RETURN] with
                  | some (_, rem2) => returnStatement fuel rem2
                  | none =>
                      match matchT rem [.LBRACE] with
                      | some (_, rem2) => blockStatement fuel rem2
                      | none => expressionStatement fuel rem
termination_by structural fuel _ => fuel

/-- `Parser.ifStatement` (the `if` keyword is already consumed). -/
def ifStatement : Nat → List Token → Except ParseFail (Stmt × List Token)
  | 0, _ => .error .fuelOut
  | fuel + 1, rem =>
      match consumeT rem .LPAREN "Expected '(' after 'if'" with
      | .error e => .error e
      | .ok (_, rem) =>
          match expression fuel rem with
          | .error e => .error e
          | .ok (cond, rem) =>
              match consumeT rem .RPAREN "Expected ')' after if condition" with
              | .error e => .error e
              | .ok (_, rem) =>
                  match statement fuel rem with
                  | .error e => .error e
                  | .ok (thenS, rem) =>
                      match matchT rem [.ELSE] with
                      | some (_, rem2) =>
                          match statement fuel rem2 with
                          | .error e => .error e
                          | .ok (elseS, rem3) => .ok (.ifStmt cond thenS (some elseS), rem3)
                      | none => .ok (.ifStmt cond thenS none, rem)
termination_by structural fuel _ => fuel

/-- `Parser.whileStatement` (the `while` keyword is already consumed). -/
def whileStatement : Nat → List Token → Except ParseFail (Stmt × List Token)
  | 0, _ => .error .fuelOut
  | fuel + 1, rem =>
      match consumeT rem .LPAREN "Expected '(' after 'while'" with
      | .error e => .error e
      | .ok (_, rem) =>
          match expression fuel rem with
          | .error e => .error e
          | .ok (cond, rem) =>
              match consumeT rem .RPAREN "Expected ')' after while condition" with
              | .error e => .error e
              | .ok (_, rem) =>
                  match statement fuel rem with
                  | .error e => .error e
                  | .ok (body, rem) => .ok (.whileStmt cond body, rem)
termination_by structural fuel _ => fuel

/-- `Parser.forStatement` (the `for` keyword is already consumed). -/
def forStatement : Nat → List Token → Except ParseFail (Stmt × List Token)
  | 0, _ => .error .fuelOut
  | fuel + 1, rem =>
      match consumeT rem .LPAREN "Expected '(' after 'for'" with
      | .error e => .error e
      | .ok (_, rem) =>
          let initRes : Except ParseFail (Option Stmt × List Token) :=
            match matchT rem [.SEMICOLON] with
            | some (_, rem2) => .ok (none, rem2)
            | none =>
                match matchT rem [.VAR] with
                | some (_, rem2) =>
                    match varDeclaration fuel rem2 with
                    | .error e => .error e
                    | .ok (st, rem3) => .ok (some st, rem3)
                | none =>
                    match expressionStatement fuel rem with
                    | .error e => .error e
                    | .ok (st, rem2) => .ok (some st, rem2)
          match initRes with
          | .error e => .error e
          | .ok (init, rem) =>
              let condRes : Except ParseFail (Option Expr × List Token) :=
                if !checkT rem .SEMICOLON then
                  match expression fuel rem with
                  | .error e => .error e
                  | .ok (e, rem2) => .ok (some e, rem2)
                else .ok (none, rem)
              match condRes with
              | .error e => .error e
              | .ok (cond, rem) =>
                  match consumeT rem .SEMICOLON "Expected ';' after for loop condition" with
                  | .error e => .error e
                  | .ok (_, rem) =>
                      let incRes : Except ParseFail (Option Expr × List Token) :=
                        if !checkT rem .RPAREN then
                          match expression fuel rem with
                          | .error e => .error e
                          | .ok (e, rem2) => .ok (some e, rem2)
                        else .ok (none, rem)
                      match incRes with
                      | .error e => .error e
                      | .ok (inc, rem) =>
                          match consumeT rem .RPAREN "Expected ')' after for clauses" with
                          | .error e => .error e
                          | .ok (_, rem) =>
                              match statement fuel rem with
                              | .error e => .error e
                              | .ok (body, rem) => .ok (.forStmt init cond inc body, rem)
termination_by structural fuel _ => fuel

/-- `Parser.returnStatement` (the `return` keyword is already consumed). -/
def returnStatement : Nat → List Token → Except ParseFail (Stmt × List Token)
  | 0, _ => .error .fuelOut
  | fuel + 1, rem =>
      let valRes : Except ParseFail (Option Expr × List Token) :=
        if !checkT rem .SEMICOLON then
          match expression fuel rem with
          | .error e => .error e
          | .ok (e, rem2) => .ok (some e, rem2)
        else .ok (none, rem)
      match valRes with
      | .error e => .error e
      | .ok (v, rem) =>
          match consumeT rem .SEMICOLON "Expected ';' after return value" with
          | .error e => .error e
          | .ok (_, rem) => .ok (.returnStmt v, rem)

/-- `Parser.blockStatement` (the `{` is already consumed). -/
def blockStatement : Nat → List Token → Except ParseFail (Stmt × List Token)
  | 0, _ => .error .fuelOut
  | fuel + 1, rem =>
      match declListUntilRBrace fuel rem with
      | .error e => .error e
      | .ok (stmts, rem) =>
          match consumeT rem .RBRACE "Expected '\x7d' after block" with
          | .error e => .error e
          | .ok (_, rem) => .ok (.block stmts, rem)
termination_by structural fuel _ => fuel

/-- `Parser.expressionStatement`. -/
def expressionStatement : Nat → List Token → Except ParseFail (Stmt × List Token)
  | 0, _ => .error .fuelOut
  | fuel + 1, rem =>
      match expression fuel rem with
      | .error e => .error e
      | .ok (e, rem) =>
          match consumeT rem .SEMICOLON "Expected ';' after expression" with
          | .error e => .error e
          | .ok (_, rem) => .ok (.exprStmt e, rem)

/-- `Parser.expression`. -/
def expression : Nat → List Token → Except ParseFail (Expr × List Token)
  | 0, _ => .error .fuelOut
  | fuel + 1, rem => assignment fuel rem
termination_by structural fuel _ => fuel

/-- `Parser.assignment`: right-associative, with the invalid-target check.
The source attaches `previous()` to the invalid-target error; the suffix
embedding retains no consumed-token history, so the adjacent current token
stands in (no claim inspects this token). -/
def assignment : Nat → List Token → Except ParseFail (Expr × List Token)
  | 0, _ => .error .fuelOut
  | fuel + 1, rem =>
      match orExpr fuel rem with
      | .error e => .error e
      | .ok (e, rem) =>
          match matchT rem [.ASSIGN] with
          | some (_, rem2) =>
              match assignment fuel rem2 with
              | .error er => .error er
              | .ok (v, rem3) =>
                  match e with
                  | .ident name => .ok (.assign name v, rem3)
                  | _ => .error (.err "Invalid assignment target" (peekT rem3))
          | none => .ok (e, rem)
termination_by structural fuel _ => fuel

/-- `Parser.or`. -/
def orExpr : Nat → List Token → Except ParseFail (Expr × List Token)
  | 0, _ => .error .fuelOut
  | fuel + 1, rem =>
      match andExpr fuel rem with
      | .error e => .error e
      | .ok (e, rem) => orLoop fuel e rem
termination_by structural fuel _ => fuel

/-- `while (match(OR))` loop of `Parser.or`. -/
def orLoop : Nat → Expr → List Token → Except ParseFail (Expr × List Token)
  | 0, _, _ => .error .fuelOut
  | fuel + 1, acc, rem =>
      match matchT rem [.OR] with
      | some (opTok, rem2) =>
          match andExpr fuel rem2 with
          | .error e => .error e
          | .ok (r, rem3) => orLoop fuel (.binary acc opTok.value r) rem3
      | none => .ok (acc, rem)
termination_by structural fuel _ _ => fuel

/-- `Parser.and`. -/
def andExpr : Nat → List Token → Except ParseFail (Expr × List Token)
  | 0, _ => .error .fuelOut
  | fuel + 1, rem =>
      match equality fuel rem with
      | .error e => .error e
      | .ok (e, rem) => andLoop fuel e rem
termination_by structural fuel _ => fuel

/-- `while (match(AND))` loop of `Parser.and`. -/
def andLoop : Nat → Expr → List Token → Except ParseFail (Expr × List Token)
  | 0, _, _ => .error .fuelOut
  | fuel + 1, acc, rem =>
      match matchT rem [.AND] with
      | some (opTok, rem2) =>
          match equality fuel rem2 with
          | .error e => .error e
          | .ok (r, rem3) => andLoop fuel (.binary acc opTok.value r) rem3
      | none => .ok (acc, rem)
termination_by structural fuel _ _ => fuel

/-- `Parser.equality`. -/
def equality : Nat → List Token → Except ParseFail (Expr × List Token)
  | 0, _ => .error .fuelOut
  | fuel + 1, rem =>
      match comparison fuel rem with
      | .error e => .error e
      | .ok (e, rem) => equalityLoop fuel e rem
termination_by structural fuel _ => fuel

/-- `while (match(NOT_EQUAL, EQUAL))` loop of `Parser.equality`. -/
def equalityLoop : Nat → Expr → List Token → Except ParseFail (Expr × List Token)
  | 0, _, _ => .error .fuelOut
  | fuel + 1, acc, rem =>
      match matchT rem [.NOT_EQUAL, .EQUAL] with
      | some (opTok, rem2) =>
          match comparison fuel rem2 with
          | .error e => .error e
          | .ok (r, rem3) => equalityLoop fuel (.binary acc opTok.value r) rem3
      | none => .ok (acc, rem)
termination_by structural fuel _ _ => fuel

/-- `Parser.comparison`. -/
def comparison : Nat → List Token → Except ParseFail (Expr × List Token)
  | 0, _ => .error .fuelOut
  | fuel + 1, rem =>
      match term fuel rem with
      | .error e => .error e
      | .ok (e, rem) => comparisonLoop fuel e rem
termination_by structural fuel _ => fuel

/-- Comparison-operator loop of `Parser.comparison`. -/
def comparisonLoop : Nat → Expr → List Token → Except ParseFail (Expr × List Token)
  | 0, _, _ => .error .fuelOut
  | fuel + 1, acc, rem =>
      match matchT rem [.GREATER_THAN, .GREATER_EQUAL, .LESS_THAN, .LESS_EQUAL] with
      | some (opTok, rem2) =>
          match term fuel rem2 with
          | .error e => .error e
          | .ok (r, rem3) => comparisonLoop fuel (.binary acc opTok.value r) rem3
      | none => .ok (acc, rem)
termination_by structural fuel _ _ => fuel

/-- `Parser.term`. -/
def term : Nat → List Token → Except ParseFail (Expr × List Token)
  | 0, _ => .error .fuelOut
  | fuel + 1, rem =>
      match factor fuel rem with
      | .error e => .error e
      | .ok (e, rem) => termLoop fuel e rem
termination_by structural fuel _ => fuel

/-- `while (match(MINUS, PLUS))` loop of `Parser.term`. -/
def termLoop : Nat → Expr → List Token → Except ParseFail (Expr × List Token)
  | 0, _, _ => .error .fuelOut
  | fuel + 1, acc, rem =>
      match matchT rem [.MINUS, .PLUS] with
      | some (opTok, rem2) =>
          match factor fuel rem2 with
          | .error e => .error e
          | .ok (r, rem3) => termLoop fuel (.binary acc opTok.value r) rem3
      | none => .ok (acc, rem)
termination_by structural fuel _ _ => fuel

/-- `Parser.factor`. -/
def factor : Nat → List Token → Except ParseFail (Expr × List Token)
  | 0, _ => .error .fuelOut
  | fuel + 1, rem =>
      match unary fuel rem with
      | .error e => .error e
      | .ok (e, rem) => factorLoop fuel e rem
termination_by structural fuel _ => fuel

/-- `while (match(DIVIDE, MULTIPLY, MODULO))` loop of `Parser.factor`. -/
def factorLoop : Nat → Expr → List Token → Except ParseFail (Expr × List Token)
  | 0, _, _ => .error .fuelOut
  | fuel + 1, acc, rem =>
      match matchT rem [.DIVIDE, .MULTIPLY, .MODULO] with
      | some (opTok, rem2) =>
          match unary fuel rem2 with
          | .error e => .error e
          | .ok (r, rem3) => factorLoop fuel (.binary acc opTok.value r) rem3
      | none => .ok (acc, rem)
termination_by structural fuel _ _ => fuel

/-- `Parser.unary`: right-associative prefix `!` and `-`. -/
def unary : Nat → List Token → Except ParseFail (Expr × List Token)
  | 0, _ => .error .fuelOut
  | fuel + 1, rem =>
      match matchT rem [.NOT, .MINUS] with
      | some (opTok, rem2) =>
          match unary fuel rem2 with
          | .error e => .error e
          | .ok (r, rem3) => .ok (.unary opTok.value r, rem3)
      | none => callExpr fuel rem
termination_by structural fuel _ => fuel

/-- `Parser.call`. -/
def callExpr : Nat → List Token → Except ParseFail (Expr × List Token)
  | 0, _ => .error .fuelOut
  | fuel + 1, rem =>
      match primary fuel rem with
      | .error e => .error e
      | .ok (e, rem) => callLoop fuel e rem
termination_by structural fuel _ => fuel

/-- `while (true) { if (match(LPAREN)) … }` loop of `Parser.call`. -/
def callLoop : Nat → Expr → List Token → Except ParseFail (Expr × List Token)
  | 0, _, _ => .error .fuelOut
  | fuel + 1, acc, rem =>
      match matchT rem [.LPAREN] with
      | some (_, rem2) =>
          match finishCall fuel acc rem2 with
          | .error e => .error e
          | .ok (e, rem3) => callLoop fuel e rem3
      | none => .ok (acc, rem)
termination_by structural fuel _ _ => fuel

/-- `Parser.finishCall`: arguments and the closing parenthesis. -/
def finishCall : Nat → Expr → List Token → Except ParseFail (Expr × List Token)
  | 0, _, _ => .error .fuelOut
  | fuel + 1, callee, rem =>
      let argsRes : Except ParseFail (List Expr × List Token) :=
        if !checkT rem .RPAREN then argsLoop fuel rem
        else .ok ([], rem)
      match argsRes with
      | .error e => .error e
      | .ok (args, rem) =>
          match consumeT rem .RPAREN "Expected ')' after arguments" with
          | .error e => .error e
          | .ok (_, rem) => .ok (.call callee args, rem)
termination_by structural fuel _ _ => fuel

/-- Argument `do … while (match(COMMA))` loop of `Parser.finishCall`. -/
def argsLoop : Nat → List Token → Except ParseFail (List Expr × List Token)
  | 0, _ => .error .fuelOut
  | fuel + 1, rem =>
      match expression fuel rem with
      | .error e => .error e
      | .ok (e, rem) =>
          match matchT rem [.COMMA] with
          | some (_, rem2) =>
              match argsLoop fuel rem2 with
              | .error er => .error er
              | .ok (rest, rem3) => .ok (e :: rest, rem3)
          | none => .ok ([e], rem)
termination_by structural fuel _ => fuel

/-- `Parser.primary`. -/
def primary : Nat → List Token → Except ParseFail (Expr × List Token)
  | 0, _ => .error .fuelOut
  | fuel + 1, rem =>
      match matchT rem [.TRUE] with
      | some (_, rem2) => .ok (.lit (.bool true), rem2)
      | none =>
          match matchT rem [.FALSE] with
          | some (_, rem2) => .ok (.lit (.bool false), rem2)
          | none =>
              match matchT rem [.NULL] with
              | some (_, rem2) => .ok (.lit .null, rem2)
              | none =>
                  match matchT rem [.NUMBER] with
                  | some (numTok, rem2) => .ok (.lit (jsParseFloat numTok.value), rem2)
                  | none =>
                      match matchT rem [.STRING] with
                      | some (strTok, rem2) => .ok (.lit (.str strTok.value), rem2)
                      | none =>
                          match matchT rem [.IDENTIFIER] with
                          | some (idTok, rem2) => .ok (.ident idTok.value, rem2)
                          | none =>
                              match matchT rem [.LPAREN] with
                              | some (_, rem2) =>
                                  match expression fuel rem2 with
                                  | .error e => .error e
                                  | .ok (e, rem3) =>
                                      match consumeT rem3 .RPAREN "Expected ')' after expression" with
                                      | .error er => .error er
                                      | .ok (_, rem4) => .ok (e, rem4)
                              | none => .error (.err "Expected expression" (peekT rem))
termination_by structural fuel _ => fuel

end

/-- Top-level `while (!isAtEnd())` loop of `Parser.parse`.  The source
synchronizes on a `ParseError` and then rethrows it, so the net observable
behavior is that the first error aborts the parse. -/
def programLoop : Nat → List Token → Except ParseFail (List Stmt)
  | 0, _ => .error .fuelOut
  | fuel + 1, rem =>
      if isAtEnd rem then .ok []
      else
        match declaration fuel rem with
        | .error e => .error e
        | .ok (st, rem2) =>
            match programLoop fuel rem2 with
            | .error e => .error e
            | .ok rest => .ok (st :: rest)

/-- The `Parser` pipeline step: the constructor filters out `NEWLINE` tokens
and `parse()` folds `declaration` until `EOF`.  The fuel is generous: each
grammar production either consumes a token or descends to a
strictly-lower-precedence production, so depth `100 · (length + 1)` cannot be
exhausted on the inputs considered. -/
def parseTokens (tokens : List Token) : Except ParseFail (List Stmt) :=
  let ts := tokens.filter (fun t => t.type != TokenType.NEWLINE)
  programLoop (100 * (ts.length + 1)) ts

end Parser

end MLang

namespace MLang

/-- The `OpCode` enum of `bytecode.ts`. -/
inductive OpCode where
  | LOAD_CONST | LOAD_VAR | STORE_VAR
  | ADD | SUBTRACT | MULTIPLY | DIVIDE | MODULO | NEGATE
  | EQUAL | NOT_EQUAL | LESS_THAN | GREATER_THAN | LESS_EQUAL | GREATER_EQUAL
  | AND | OR | NOT
  | JUMP | JUMP_IF_FALSE | JUMP_IF_TRUE
  | CALL | RETURN
  | PRINT | INPUT
  | POP | HALT
deriving DecidableEq, Repr

/-- The `Instruction` record of `bytecode.ts`: an opcode and an optional
numeric operand (constant index, variable index, jump target or argument
count).  The `line` field is omitted: the generator's `currentLine` is
initialized to `1` and never updated, so the field is the constant `1` and
nothing reads it. -/
structure Instruction where
  opcode : OpCode
  operand : Option Nat
deriving DecidableEq, Repr

/-- The `{ instructions, constants }` pair returned by
`BytecodeGenerator.generate`. -/
structure Bytecode where
  instructions : List Instruction
  constants : List Value
deriving DecidableEq, Repr

/-- Lookup in an insertion-ordered association list, the embedding of
JavaScript `Map.get`. -/
def assocGet {α : Type} : List (String × α) → String → Option α
  | [], _ => none
  | (k, v) :: rest, key => if k = key then some v else assocGet rest key

/-- Update-or-append on an insertion-ordered association list, the embedding
of JavaScript `Map.set` (overwrites in place, otherwise appends; `Map.size`
is the list length). -/
def assocSet {α : Type} : List (String × α) → String → α → List (String × α)
  | [], key, v => [(key, v)]
  | (k, w) :: rest, key, v =>
      if k = key then (key, v) :: rest else (k, w) :: assocSet rest key v

namespace BytecodeGenerator

/-- Compiler failures: the `Undefined variable: name` exception thrown by
`visitIdentifier`, plus the fuel-exhaustion artifact of the embedding (never
produced by `generate`, whose fuel covers any input). -/
inductive CompileError where
  | undefinedVariable (name : String)
  | fuelOut
deriving DecidableEq, Repr

/-- Mutable fields of the `BytecodeGenerator` class: emitted instructions,
constant pool, the name→index variable map (`variables` in the source; that word is a
reserved token in Lean, so the field is named `vars`) and the
name→(address, arity) function map. -/
structure GenState where
  instructions : List Instruction
  constants : List Value
  vars : List (String × Nat)
  functions : List (String × Nat × Nat)
deriving DecidableEq, Repr

/-- The generator's initial state. -/
def initState : GenState := ⟨[], [], [], []⟩

/-- `BytecodeGenerator.emit`. -/
def emit (st : GenState) (op : OpCode) (operand : Option Nat) : GenState :=
  { st with instructions := st.instructions ++ [⟨op, operand⟩] }

/-- First index of a strictly-equal constant, the embedding of
`Array.indexOf` (which compares with `===`). -/
def indexOfValue : List Value → Value → Nat → Option Nat
  | [], _, _ => none
  | c :: rest, v, i => if jsStrictEq c v then some i else indexOfValue rest v (i + 1)

/-- `BytecodeGenerator.addConstant`: reuse the index of a strictly-equal
pool entry, else append. -/
def addConstant (st : GenState) (v : Value) : Nat × GenState :=
  match indexOfValue st.constants v 0 with
  | some i => (i, st)
  | none => (st.constants.length, { st with constants := st.constants ++ [v] })

/-- In-place operand overwrite `instructions[idx].operand = target`, used by
the jump-patching of `visitIfStatement`, `visitWhileStatement` and
`visitForStatement`. -/
def patchAt : List Instruction → Nat → Nat → List Instruction
  | [], _, _ => []
  | i :: rest, 0, target => { i with operand := some target } :: rest
  | i :: rest, n + 1, target => i :: patchAt rest n target

/-- Binary-operator dispatch of `visitBinaryExpression`; `none` mirrors the
switch without a default, which emits nothing for an unknown operator. -/
def binaryOpcode : String → Option OpCode
  | "+" => some .ADD
  | "-" => some .SUBTRACT
  | "*" => some .MULTIPLY
  | "/" => some .DIVIDE
  | "%" => some .MODULO
  | "==" => some .EQUAL
  | "!=" => some .NOT_EQUAL
  | "<" => some .LESS_THAN
  | ">" => some .GREATER_THAN
  | "<=" => some .LESS_EQUAL
  | ">=" => some .GREATER_EQUAL
  | "&&" => some .AND
  | "||" => some .OR
  | _ => none

/-- Unary-operator dispatch of `visitUnaryExpression`. -/
def unaryOpcode : String → Option OpCode
  | "-" => some .NEGATE
  | "!" => some .NOT
  | _ => none

/-- `instanceof AST.ExpressionStatement` test of `visitForStatement`. -/
def isExpressionStatement : Stmt → Bool
  | .exprStmt _ => true
  | _ => false

/-- Parameter loop of `visitFunctionDeclaration` (already reversed by the
caller): allocate `variables.size` as the index, bind the name, emit
`STORE_VAR`. -/
def storeParams : List String → GenState → GenState
  | [], st => st
  | p :: rest, st =>
      let idx := st.vars.length
      let st := { st with vars := assocSet st.vars p idx }
      storeParams rest (emit st .STORE_VAR (some idx))

mutual

/-- Expression compilation: the `visitBinaryExpression`,
`visitUnaryExpression`, `visitCallExpression`, `visitAssignmentExpression`,
`visitIdentifier` and `visitLiteral` methods of `BytecodeGenerator`. -/
def compileExpr : Nat → Expr → GenState → Except CompileError GenState
  | 0, _, _ => .error .fuelOut
  | fuel + 1, e, st =>
      match e with
      | .binary l op r =>
          match compileExpr fuel l st with
          | .error er => .error er
          | .ok st =>
              match compileExpr fuel r st with
              | .error er => .error er
              | .ok st =>
                  match binaryOpcode op with
                  | some oc => .ok (emit st oc none)
                  | none => .ok st
      | .unary op v =>
          match compileExpr fuel v st with
          | .error er => .error er
          | .ok st =>
              match unaryOpcode op with
              | some oc => .ok (emit st oc none)
              | none => .ok st
      | .call callee args =>
          match callee with
          | .ident name =>
              if name = "print" || name = "achchidu" then
                match compileExprList fuel args st with
                | .error er => .error er
                | .ok st => .ok (emit st .PRINT (some args.length))
              else if name = "input" || name = "ulle" then
                .ok (emit st .INPUT none)
              else
                match compileExprList fuel args st with
                | .error er => .error er
                | .ok st =>
                    match compileExpr fuel callee st with
                    | .error er => .error er
                    | .ok st => .ok (emit st .CALL (some args.length))
          | _ =>
              match compileExprList fuel args st with
              | .error er => .error er
              | .ok st =>
                  match compileExpr fuel callee st with
                  | .error er => .error er
                  | .ok st => .ok (emit st .CALL (some args.length))
      | .assign name v =>
          match compileExpr fuel v st with
          | .error er => .error er
          | .ok st =>
              match assocGet st.vars name with
              | some idx => .ok (emit st .STORE_VAR (some idx))
              | none =>
                  let idx := st.vars.length
                  let st := { st with vars := assocSet st.vars name idx }
                  .ok (emit st .STORE_VAR (some idx))
      | .ident name =>
          match assocGet st.vars name with
          | some idx => .ok (emit st .LOAD_VAR (some idx))
          | none =>
              match assocGet st.functions name with
              | some fn =>
                  let p := addConstant st (.num (mkRat fn.1 1))
                  .ok (emit p.2 .LOAD_CONST (some p.1))
              | none => .error (.undefinedVariable name)
      | .lit v =>
          let p := addConstant st v
          .ok (emit p.2 .LOAD_CONST (some p.1))

/-- Argument-list loop of `visitCallExpression`. -/
def compileExprList : Nat → List Expr → GenState → Except CompileError GenState
  | 0, _, _ => .error .fuelOut
  | fuel + 1, es, st =>
      match es with
      | [] => .ok st
      | e :: rest =>
          match compileExpr fuel e st with
          | .error er => .error er
          | .ok st => compileExprList fuel rest st

/-- Statement compilation: the `visitVarDeclaration`,
`visitFunctionDeclaration`, `visitIfStatement`, `visitWhileStatement`,
`visitForStatement`, `visitReturnStatement` and `visitExpressionStatement`
methods.  The `block` case embeds `BlockStatement.accept` of `ast.ts`,
which dispatches through `visitProgram` on a `Program` wrapping the block's
statements and hence compiles them in order. -/
def compileStmt : Nat → Stmt → GenState → Except CompileError GenState
  | 0, _, _ => .error .fuelOut
  | fuel + 1, s, st =>
      match s with
      | .varDecl name init =>
          let initRes : Except CompileError GenState :=
            match init with
            | some e => compileExpr fuel e st
            | none =>
                let p := addConstant st .null
                .ok (emit p.2 .LOAD_CONST (some p.1))
          match initRes with
          | .error er => .error er
          | .ok st =>
              let idx := st.vars.length
              let st := { st with vars := assocSet st.vars name idx }
              .ok (emit st .STORE_VAR (some idx))
      | .funDecl name params body =>
          let addr := st.instructions.length
          let st := { st with functions := assocSet st.functions name (addr, params.length) }
          let st := storeParams params.reverse st
          match compileStmtList fuel body st with
          | .error er => .error er
          | .ok st =>
              let p := addConstant st .null
              let st := emit p.2 .LOAD_CONST (some p.1)
              .ok (emit st .RETURN none)
      | .ifStmt cond thenS elseS =>
          match compileExpr fuel cond st with
          | .error er => .error er
          | .ok st =>
              let jumpIfFalse := st.instructions.length
              let st := emit st .JUMP_IF_FALSE (some 0)
              match compileStmt fuel thenS st with
              | .error er => .error er
              | .ok st =>
                  match elseS with
                  | some els =>
                      let jump := st.instructions.length
                      let st := emit st .JUMP (some 0)
                      let st := { st with
                        instructions := patchAt st.instructions jumpIfFalse st.instructions.length }
                      match compileStmt fuel els st with
                      | .error er => .error er
                      | .ok st =>
                          .ok { st with
                            instructions := patchAt st.instructions jump st.instructions.length }
                  | none =>
                      .ok { st with
                        instructions := patchAt st.instructions jumpIfFalse st.instructions.length }
      | .whileStmt cond body =>
          let loopStart := st.instructions.length
          match compileExpr fuel cond st with
          | .error er => .error er
          | .ok st =>
              let jumpIfFalse := st.instructions.length
              let st := emit st .JUMP_IF_FALSE (some 0)
              match compileStmt fuel body st with
              | .error er => .error er
              | .ok st =>
                  let st := emit st .JUMP (some loopStart)
                  .ok { st with
                    instructions := patchAt st.instructions jumpIfFalse st.instructions.length }
      | .forStmt init cond inc body =>
          let initRes : Except CompileError GenState :=
            match init with
            | some i =>
                match compileStmt fuel i st with
                | .error er => .error er
                | .ok st =>
                    if isExpressionStatement i then .ok (emit st .POP none) else .ok st
            | none => .ok st
          match initRes with
          | .error er => .error er
          | .ok st =>
              let loopStart := st.instructions.length
              let condRes : Except CompileError GenState :=
                match cond with
                | some c => compileExpr fuel c st
                | none =>
                    let p := addConstant st (.bool true)
                    .ok (emit p.2 .LOAD_CONST (some p.1))
              match condRes with
              | .error er => .error er
              | .ok st =>
                  let jumpIfFalse := st.instructions.length
                  let st := emit st .JUMP_IF_FALSE (some 0)
                  match compileStmt fuel body st with
                  | .error er => .error er
                  | .ok st =>
                      let incRes : Except CompileError GenState :=
                        match inc with
                        | some e =>
                            match compileExpr fuel e st with
                            | .error er => .error er
                            | .ok st => .ok (emit st .POP none)
                        | none => .ok st
                      match incRes with
                      | .error er => .error er
                      | .ok st =>
                          let st := emit st .JUMP (some loopStart)
                          .ok { st with
                            instructions := patchAt st.instructions jumpIfFalse st.instructions.length }
      | .returnStmt v =>
          let valRes : Except CompileError GenState :=
            match v with
            | some e => compileExpr fuel e st
            | none =>
                let p := addConstant st .null
                .ok (emit p.2 .LOAD_CONST (some p.1))
          match valRes with
          | .error er => .error er
          | .ok st => .ok (emit st .RETURN none)
      | .block stmts => compileStmtList fuel stmts st
      | .exprStmt e =>
          match compileExpr fuel e st with
          | .error er => .error er
          | .ok st => .ok (emit st .POP none)

/-- Statement-list loop of `visitProgram`, function bodies and blocks. -/
def compileStmtList : Nat → List Stmt → GenState → Except CompileError GenState
  | 0, _, _ => .error .fuelOut
  | fuel + 1, ss, st =>
      match ss with
      | [] => .ok st
      | s :: rest =>
          match compileStmt fuel s st with
          | .error er => .error er
          | .ok st => compileStmtList fuel rest st

end

/-- `BytecodeGenerator.generate`: compile the program's statements and
append the final `HALT`.  The fuel parameter is an artifact of the
embedding: every recursive call of the compiler descends into a strict
subterm, so any fuel exceeding the number of AST nodes makes the `fuelOut`
branch unreachable (the pipeline passes a bound derived from the token
count, which dominates the node count). -/
def generate (fuel : Nat) (program : List Stmt) : Except CompileError Bytecode :=
  match compileStmtList fuel program initState with
  | .error er => .error er
  | .ok st =>
      let st := emit st .HALT none
      .ok ⟨st.instructions, st.constants⟩

end BytecodeGenerator

end MLang

namespace MLang

namespace VirtualMachine

/-- Call-stack frames as declared in the `VirtualMachine` class
(`{ returnAddress, frameStart }`).  No opcode handler in the source's switch
pushes or pops frames — `CALL`/`RETURN` have no case — so the field stays
empty in every execution. -/
structure Frame where
  returnAddress : Int
  frameStart : Nat
deriving DecidableEq, Repr

/-- Mutable fields of the `VirtualMachine` class.  The program counter is an
integer because jump handlers set `pc = operand − 1` before the loop's
increment.  The `vars` field is the class's `variables` array (`variables`
is a reserved token in Lean). -/
structure VMState where
  stack : List Value
  vars : List Value
  callStack : List Frame
  pc : Int
  output : List String
deriving DecidableEq, Repr

/-- The fresh state `execute` installs before the fetch loop. -/
def initState : VMState := ⟨[], [], [], 0, []⟩

/-- Runtime failures thrown by `executeInstruction`: `Undefined variable at
index …` (`LOAD_VAR` out of range), `Division by zero` (`DIVIDE` only), and
the default branch's `Unknown opcode: …` — which is what `CALL` and `RETURN`
hit, since the source's switch has no case for them. -/
inductive VMError where
  | undefinedVariable (index : Nat)
  | divisionByZero
  | unknownOpcode (opcode : OpCode)
deriving DecidableEq, Repr

/-- JavaScript `Array.pop`: yields `undefined` on an empty array and leaves
it empty (the VM performs no explicit underflow check). -/
def popJS : List Value → Value × List Value
  | [] => (.undefined, [])
  | v :: rest => (v, rest)

/-- Iterated `popJS`, in pop order (top of stack first), as in the `PRINT`
handler's loop. -/
def popMany : Nat → List Value → List Value × List Value
  | 0, s => ([], s)
  | n + 1, s =>
      let p := popJS s
      let q := popMany n p.2
      (p.1 :: q.1, q.2)

/-- The `STORE_VAR` write: pad the variable array with `null` while
`length <= index`, then assign. -/
def storeAt (vars : List Value) (i : Nat) (v : Value) : List Value :=
  (vars ++ List.replicate (i + 1 - vars.length) Value.null).set i v

/-- Constant-pool read `constants[operand]`: a JavaScript out-of-range or
`undefined` index reads as `undefined`. -/
def getConst (consts : List Value) (oi : Option Nat) : Value :=
  match oi with
  | some i => (consts.get? i).getD .undefined
  | none => .undefined

/-- `VirtualMachine.executeInstruction`, case by case.  Jump handlers with a
missing operand make the JavaScript `pc` NaN, so the fetch loop's
`pc < length` test fails and execution ends; this is modelled by setting
`pc` to the instruction-list length (whence the `instrs` parameter — no
other handler reads the instruction list). -/
def executeInstruction (instrs : List Instruction) (consts : List Value)
    (ins : Instruction) (s : VMState) : Except VMError VMState :=
  match ins.opcode with
  | .LOAD_CONST => .ok { s with stack := getConst consts ins.operand :: s.stack }
  | .LOAD_VAR =>
      match ins.operand with
      | some i =>
          if s.vars.length ≤ i then .error (.undefinedVariable i)
          else .ok { s with stack := (s.vars.get? i).getD .undefined :: s.stack }
      | none => .ok { s with stack := .undefined :: s.stack }
  | .STORE_VAR =>
      let p := popJS s.stack
      match ins.operand with
      | some i => .ok { s with stack := p.1 :: p.2, vars := storeAt s.vars i p.1 }
      | none => .ok { s with stack := p.1 :: p.2 }
  | .ADD =>
      let pb := popJS s.stack
      let pa := popJS pb.2
      .ok { s with stack := jsAdd pa.1 pb.1 :: pa.2 }
  | .SUBTRACT =>
      let pb := popJS s.stack
      let pa := popJS pb.2
      .ok { s with stack := jsSub pa.1 pb.1 :: pa.2 }
  | .MULTIPLY =>
      let pb := popJS s.stack
      let pa := popJS pb.2
      .ok { s with stack := jsMul pa.1 pb.1 :: pa.2 }
  | .DIVIDE =>
      let pb := popJS s.stack
      let pa := popJS pb.2
      if jsStrictEq pb.1 (.num 0) then .error .divisionByZero
      else .ok { s with stack := jsDiv pa.1 pb.1 :: pa.2 }
  | .MODULO =>
      let pb := popJS s.stack
      let pa := popJS pb.2
      .ok { s with stack := jsMod pa.1 pb.1 :: pa.2 }
  | .NEGATE =>
      let p := popJS s.stack
      .ok { s with stack := jsNeg p.1 :: p.2 }
  | .EQUAL =>
      let pb := popJS s.stack
      let pa := popJS pb.2
      .ok { s with stack := .bool (jsStrictEq pa.1 pb.1) :: pa.2 }
  | .NOT_EQUAL =>
      let pb := popJS s.stack
      let pa := popJS pb.2
      .ok { s with stack := .bool (!jsStrictEq pa.1 pb.1) :: pa.2 }
  | .LESS_THAN =>
      let pb := popJS s.stack
      let pa := popJS pb.2
      .ok { s with stack := .bool (jsLess pa.1 pb.1) :: pa.2 }
  | .GREATER_THAN =>
      let pb := popJS s.stack
      let pa := popJS pb.2
      .ok { s with stack := .bool (jsGreater pa.1 pb.1) :: pa.2 }
  | .LESS_EQUAL =>
      let pb := popJS s.stack
      let pa := popJS pb.2
      .ok { s with stack := .bool (jsLessEq pa.1 pb.1) :: pa.2 }
  | .GREATER_EQUAL =>
      let pb := popJS s.stack
      let pa := popJS pb.2
      .ok { s with stack := .bool (jsGreaterEq pa.1 pb.1) :: pa.2 }
  | .AND =>
      let pb := popJS s.stack
      let pa := popJS pb.2
      .ok { s with stack := (if jsTruthy pa.1 then pb.1 else pa.1) :: pa.2 }
  | .OR =>
      let pb := popJS s.stack
      let pa := popJS pb.2
      .ok { s with stack := (if jsTruthy pa.1 then pa.1 else pb.1) :: pa.2 }
  | .NOT =>
      let p := popJS s.stack
      .ok { s with stack := .bool (!jsTruthy p.1) :: p.2 }
  | .JUMP =>
      match ins.operand with
      | some t => .ok { s with pc := (t : Int) - 1 }
      | none => .ok { s with pc := instrs.length }
  | .JUMP_IF_FALSE =>
      let p := popJS s.stack
      if !jsTruthy p.1 then
        match ins.operand with
        | some t => .ok { s with stack := p.2, pc := (t : Int) - 1 }
        | none => .ok { s with stack := p.2, pc := instrs.length }
      else .ok { s with stack := p.2 }
  | .JUMP_IF_TRUE =>
      let p := popJS s.stack
      if jsTruthy p.1 then
        match ins.operand with
        | some t => .ok { s with stack := p.2, pc := (t : Int) - 1 }
        | none => .ok { s with stack := p.2, pc := instrs.length }
      else .ok { s with stack := p.2 }
  | .PRINT =>
      let count := match ins.operand with
        | some n => if n = 0 then 1 else n
        | none => 1
      let p := popMany count s.stack
      let line := String.intercalate " " (p.1.reverse.map jsToString)
      .ok { s with stack := p.2, output := s.output ++ [line] }
  | .INPUT => .ok { s with stack := .str "" :: s.stack }
  | .POP => .ok { s with stack := (popJS s.stack).2 }
  | .HALT => .ok s
  | .CALL => .error (.unknownOpcode .CALL)
  | .RETURN => .error (.unknownOpcode .RETURN)

/-- Outcome of a VM run: normal completion, a thrown runtime error (caught
by `execute`, which reports it beside the output produced so far), or the
embedding's fuel exhaustion (the source loops without bound; concrete runs
below are given ample fuel). -/
inductive RunResult where
  | done (s : VMState)
  | vmError (s : VMState) (e : VMError)
  | outOfFuel (s : VMState)
deriving DecidableEq, Repr

/-- The `while (pc < instructions.length)` fetch loop of
`VirtualMachine.execute`: fetch, dispatch, increment.  The `none` fetch
branch is unreachable: `pc` is nonnegative whenever the loop guard holds
(jump targets are naturals). -/
def runLoop (instrs : List Instruction) (consts : List Value) :
    Nat → VMState → RunResult
  | 0, s => .outOfFuel s
  | fuel + 1, s =>
      if s.pc < (instrs.length : Int) then
        match instrs.get? s.pc.toNat with
        | none => .done s
        | some ins =>
            match executeInstruction instrs consts ins s with
            | .error e => .vmError s e
            | .ok s2 => runLoop instrs consts fuel { s2 with pc := s2.pc + 1 }
      else .done s

/-- `VirtualMachine.execute`: reset the state and run the fetch loop. -/
def execute (bc : Bytecode) (fuel : Nat) : RunResult :=
  runLoop bc.instructions bc.constants fuel initState

end VirtualMachine

/-- Outcome of the full pipeline as the host page drives it
(`part_001` lines 117–136): lexer → parser → generator → VM, with parse
errors and generator exceptions caught separately from VM results. -/
inductive PipelineResult where
  | parseFailed (e : Parser.ParseFail)
  | compileFailed (e : BytecodeGenerator.CompileError)
  | executed (r : VirtualMachine.RunResult)
deriving DecidableEq, Repr

/-- Compile a source text: `new Lexer(code, language).tokenize()`, then
`new Parser(tokens).parse()`, then `new BytecodeGenerator().generate(ast)`.
The generator fuel `10 · (tokens + 1)` dominates the AST node count (every
node consumes at least one token). -/
def compileSource (lang : LanguageDefinition) (source : String) :
    Except PipelineResult Bytecode :=
  let tokens := Lexer.tokenize lang source
  match Parser.parseTokens tokens with
  | .error e => .error (.parseFailed e)
  | .ok prog =>
      match BytecodeGenerator.generate (10 * (tokens.length + 1)) prog with
      | .error e => .error (.compileFailed e)
      | .ok bc => .ok bc

/-- Full pipeline: compile and execute with the given VM fuel. -/
def runSource (lang : LanguageDefinition) (source : String) (vmFuel : Nat) :
    PipelineResult :=
  match compileSource lang source with
  | .error r => r
  | .ok bc => .executed (VirtualMachine.execute bc vmFuel)

/-- Output lines of a successfully completed run, `none` otherwise. -/
def finalOutput : PipelineResult → Option (List String)
  | .executed (.done s) => some s.output
  | _ => none

/-- Final operand stack of a successfully completed run. -/
def finalStack : PipelineResult → Option (List Value)
  | .executed (.done s) => some s.stack
  | _ => none

/-- The runtime error of a run that threw, `none` otherwise. -/
def runtimeError : PipelineResult → Option VirtualMachine.VMError
  | .executed (.vmError _ e) => some e
  | _ => none

end MLang

namespace MLang

/-- Scenario 4 of the specification: the recursive factorial program. -/
def factSource : String :=
  "function fact(n) \x7b if (n <= 1) \x7b return 1; \x7d else \x7b return n * fact(n - 1); \x7d \x7d print(fact(5));"

/-- A minimal program with a function declaration followed by top-level
code. -/
def funSkipSource : String := "function f() \x7b\x7d print(1);"

/-- A single variable-declaration statement. -/
def varDeclSource : String := "var x = 10;"

/-- A `MODULO` with zero right-hand side, printed. -/
def moduloZeroSource : String := "print(1 % 0);"

/-- The Hindi-mode scenario as written in the specification. -/
def hindiDikhaaoSource : String := "agar (1 < 2) \x7b dikhaao(\"ok\"); \x7d"

/-- The Hindi-mode scenario with the spelling of `print` that the Hindi
table actually declares. -/
def hindiPrintSource : String := "agar (1 < 2) \x7b print(\"ok\"); \x7d"

/-- Scenario 2 of the specification: string-biased `+`. -/
def concatSource : String := "var s = \"hi\"; print(s + \" \" + 3);"

/-- A multi-dot number lexeme in an otherwise well-formed program. -/
def multiDotSource : String := "print(1.2.3);"

/-- A `print` call with zero arguments. -/
def emptyPrintSource : String := "print();"

/-- A demonstration program exercising all three patched jump forms:
`if`/`else`, `while`, and `for` with an absent condition. -/
def demoProgram : List Stmt :=
  [.ifStmt (.binary (.lit (.num 1)) "<" (.lit (.num 2)))
      (.block [.exprStmt (.call (.ident "print") [.lit (.num 1)])])
      (some (.block [.exprStmt (.call (.ident "print") [.lit (.num 2)])])),
   .whileStmt (.lit (.num 0)) (.block [.exprStmt (.lit (.num 1))]),
   .forStmt none none none (.block [])]

/-- The bytecode `generate` produces for `demoProgram`. -/
def demoBytecode : Bytecode :=
  { instructions :=
      [⟨.LOAD_CONST, some 0⟩, ⟨.LOAD_CONST, some 1⟩, ⟨.LESS_THAN, none⟩,
       ⟨.JUMP_IF_FALSE, some 8⟩, ⟨.LOAD_CONST, some 0⟩, ⟨.PRINT, some 1⟩,
       ⟨.POP, none⟩, ⟨.JUMP, some 11⟩, ⟨.LOAD_CONST, some 1⟩, ⟨.PRINT, some 1⟩,
       ⟨.POP, none⟩, ⟨.LOAD_CONST, some 2⟩, ⟨.JUMP_IF_FALSE, some 16⟩,
       ⟨.LOAD_CONST, some 0⟩, ⟨.POP, none⟩, ⟨.JUMP, some 11⟩,
       ⟨.LOAD_CONST, some 3⟩, ⟨.JUMP_IF_FALSE, some 19⟩, ⟨.JUMP, some 16⟩,
       ⟨.HALT, none⟩],
    constants := [.num 1, .num 2, .num 0, .bool true] }


namespace BytecodeGenerator

/-- Every jump instruction in the list carries a target operand of at most
`bound`. -/
def jumpTargetsBounded (instrs : List Instruction) (bound : Nat) : Prop :=
  ∀ i ∈ instrs,
    (i.opcode = OpCode.JUMP ∨ i.opcode = OpCode.JUMP_IF_FALSE ∨
      i.opcode = OpCode.JUMP_IF_TRUE) →
    ∃ t, i.operand = some t ∧ t ≤ bound

/-- Generator invariant maintained by every visit method: jump targets never
exceed the instruction count emitted so far (a forward patch lands exactly at
the count, a backward jump strictly below it). -/
def GenInv (st : GenState) : Prop :=
  jumpTargetsBounded st.instructions st.instructions.length

/-- What one compilation step guarantees: the instruction list only grows,
and the invariant is preserved. -/
def Pres (st st2 : GenState) : Prop :=
  st.instructions.length ≤ st2.instructions.length ∧ (GenInv st → GenInv st2)

theorem jumpTargetsBounded_mono {instrs : List Instruction} {b b2 : Nat}
    (h : jumpTargetsBounded instrs b) (hb : b ≤ b2) : jumpTargetsBounded instrs b2 := by
  intro i hi hj
  obtain ⟨t, ht, hle⟩ := h i hi hj
  exact ⟨t, ht, hle.trans hb⟩

theorem pres_refl (st : GenState) : Pres st st := ⟨Nat.le_refl _, id⟩

theorem pres_trans {a b c : GenState} (h1 : Pres a b) (h2 : Pres b c) : Pres a c :=
  ⟨h1.1.trans h2.1, fun g => h2.2 (h1.2 g)⟩

theorem emit_instructions (st : GenState) (op : OpCode) (o : Option Nat) :
    (emit st op o).instructions = st.instructions ++ [⟨op, o⟩] := rfl

theorem emit_length (st : GenState) (op : OpCode) (o : Option Nat) :
    (emit st op o).instructions.length = st.instructions.length + 1 := by
  simp [emit]

theorem pres_emit_of_not (st : GenState) (op : OpCode) (o : Option Nat)
    (hop : ¬(op = OpCode.JUMP ∨ op = OpCode.JUMP_IF_FALSE ∨ op = OpCode.JUMP_IF_TRUE)) :
    Pres st (emit st op o) := by
  refine ⟨by simp [emit], fun h => ?_⟩
  intro i hi hj
  rw [emit_instructions] at hi
  rcases List.mem_append.1 hi with h1 | h2
  · obtain ⟨t, ht, hle⟩ := h i h1 hj
    exact ⟨t, ht, by rw [emit_length]; omega⟩
  · rw [List.mem_singleton] at h2
    subst h2
    exact absurd hj hop

theorem pres_emit_le (st : GenState) (op : OpCode) {t : Nat}
    (ht : t ≤ st.instructions.length) : Pres st (emit st op (some t)) := by
  refine ⟨by simp [emit], fun h => ?_⟩
  intro i hi hj
  rw [emit_instructions] at hi
  rcases List.mem_append.1 hi with h1 | h2
  · obtain ⟨u, hu, hle⟩ := h i h1 hj
    exact ⟨u, hu, by rw [emit_length]; omega⟩
  · rw [List.mem_singleton] at h2
    subst h2
    exact ⟨t, rfl, by rw [emit_length]; omega⟩

theorem patchAt_length (l : List Instruction) (idx t : Nat) :
    (patchAt l idx t).length = l.length := by
  induction l generalizing idx with
  | nil => rfl
  | cons a l ih =>
      cases idx with
      | zero => simp [patchAt]
      | succ n => simp [patchAt, ih]

theorem patchAt_bounded {l : List Instruction} {b t : Nat}
    (h : jumpTargetsBounded l b) (idx : Nat) (ht : t ≤ b) :
    jumpTargetsBounded (patchAt l idx t) b := by
  induction l generalizing idx with
  | nil => simpa [patchAt] using h
  | cons a l ih =>
      cases idx with
      | zero =>
          intro i hi hj
          rcases List.mem_cons.1 hi with rfl | hmem
          · exact ⟨t, rfl, ht⟩
          · exact h i (List.mem_cons_of_mem _ hmem) hj
      | succ n =>
          intro i hi hj
          rw [patchAt] at hi
          rcases List.mem_cons.1 hi with rfl | hmem
          · exact h i (List.mem_cons_self _ _) hj
          · exact ih (fun j hj2 hjj => h j (List.mem_cons_of_mem _ hj2) hjj) n i hmem hj

theorem pres_patch (st : GenState) (idx : Nat) :
    Pres st { st with instructions := patchAt st.instructions idx st.instructions.length } := by
  refine ⟨by simp [patchAt_length], fun h => ?_⟩
  have h2 := patchAt_bounded h idx (Nat.le_refl st.instructions.length)
  unfold GenInv
  simpa [patchAt_length] using h2

theorem pres_addConstant (st : GenState) (v : Value) : Pres st (addConstant st v).2 := by
  unfold addConstant
  split
  · exact pres_refl st
  · exact ⟨Nat.le_refl _, id⟩

theorem pres_storeParams (ps : List String) (st : GenState) : Pres st (storeParams ps st) := by
  induction ps generalizing st with
  | nil => exact pres_refl st
  | cons p ps ih =>
      refine pres_trans (pres_trans (b := { st with vars := assocSet st.vars p st.vars.length })
        ⟨Nat.le_refl _, id⟩ (pres_emit_of_not _ _ _ (by decide))) (ih _)

theorem binaryOpcode_ne_jump {op : String} {oc : OpCode} (h : binaryOpcode op = some oc) :
    ¬(oc = OpCode.JUMP ∨ oc = OpCode.JUMP_IF_FALSE ∨ oc = OpCode.JUMP_IF_TRUE) := by
  unfold binaryOpcode at h
  split at h <;> simp_all <;> subst h <;> decide

theorem unaryOpcode_ne_jump {op : String} {oc : OpCode} (h : unaryOpcode op = some oc) :
    ¬(oc = OpCode.JUMP ∨ oc = OpCode.JUMP_IF_FALSE ∨ oc = OpCode.JUMP_IF_TRUE) := by
  unfold unaryOpcode at h
  split at h <;> simp_all <;> subst h <;> decide

end BytecodeGenerator

end MLang

namespace MLang

namespace BytecodeGenerator

/-- Every compilation step of every visit method only appends instructions
and keeps all jump operands bounded by the instruction count. -/
theorem compile_pres (fuel : Nat) :
    (∀ e st st2, compileExpr fuel e st = .ok st2 → Pres st st2) ∧
    (∀ es st st2, compileExprList fuel es st = .ok st2 → Pres st st2) ∧
    (∀ s st st2, compileStmt fuel s st = .ok st2 → Pres st st2) ∧
    (∀ ss st st2, compileStmtList fuel ss st = .ok st2 → Pres st st2) := by
  induction fuel with
  | zero =>
      refine ⟨?_, ?_, ?_, ?_⟩
      · intro x st st2 h
        simp [compileExpr] at h
      · intro x st st2 h
        simp [compileExprList] at h
      · intro x st st2 h
        simp [compileStmt] at h
      · intro x st st2 h
        simp [compileStmtList] at h
  | succ fuel ih =>
      obtain ⟨ihE, ihEs, ihS, ihSs⟩ := ih
      refine ⟨?_, ?_, ?_, ?_⟩
      · -- compileExpr
        intro e st st2 h
        cases e with
        | binary l op r =>
            simp only [compileExpr] at h
            split at h
            · exact Except.noConfusion h
            next st1 hl =>
              split at h
              · exact Except.noConfusion h
              next stA hr =>
                have p := pres_trans (ihE l st st1 hl) (ihE r st1 stA hr)
                split at h
                next oc hb =>
                  injection h with h
                  subst h
                  exact pres_trans p (pres_emit_of_not _ _ _ (binaryOpcode_ne_jump hb))
                next hb =>
                  injection h with h
                  subst h
                  exact p
        | unary op v =>
            simp only [compileExpr] at h
            split at h
            · exact Except.noConfusion h
            next stA hv =>
              have p := ihE v st stA hv
              split at h
              next oc hb =>
                injection h with h
                subst h
                exact pres_trans p (pres_emit_of_not _ _ _ (unaryOpcode_ne_jump hb))
              next hb =>
                injection h with h
                subst h
                exact p
        | call callee args =>
            simp only [compileExpr] at h
            split at h
            next name =>
              split at h
              next hcond =>
                split at h
                · exact Except.noConfusion h
                next stA ha =>
                  injection h with h
                  subst h
                  exact pres_trans (ihEs args st stA ha)
                    (pres_emit_of_not _ _ _ (by decide))
              next hcond =>
                split at h
                next hcond2 =>
                  injection h with h
                  subst h
                  exact pres_emit_of_not _ _ _ (by decide)
                next hcond2 =>
                  split at h
                  · exact Except.noConfusion h
                  next stA ha =>
                    split at h
                    · exact Except.noConfusion h
                    next stB hc =>
                      injection h with h
                      subst h
                      exact pres_trans (ihEs args st stA ha)
                        (pres_trans (ihE _ stA stB hc)
                          (pres_emit_of_not _ _ _ (by decide)))
            next hne =>
              split at h
              · exact Except.noConfusion h
              next stA ha =>
                split at h
                · exact Except.noConfusion h
                next stB hc =>
                  injection h with h
                  subst h
                  exact pres_trans (ihEs args st stA ha)
                    (pres_trans (ihE _ stA stB hc)
                      (pres_emit_of_not _ _ _ (by decide)))
        | assign name v =>
            simp only [compileExpr] at h
            split at h
            · exact Except.noConfusion h
            next stA hv =>
              have p := ihE v st stA hv
              split at h
              next idx hg =>
                injection h with h
                subst h
                exact pres_trans p (pres_emit_of_not _ _ _ (by decide))
              next hg =>
                injection h with h
                subst h
                exact pres_trans p (pres_trans ⟨Nat.le_refl _, id⟩
                  (pres_emit_of_not _ _ _ (by decide)))
        | ident name =>
            simp only [compileExpr] at h
            split at h
            next idx hg =>
              injection h with h
              subst h
              exact pres_emit_of_not _ _ _ (by decide)
            next hg =>
              split at h
              next fn hf =>
                injection h with h
                subst h
                exact pres_trans (pres_addConstant _ _)
                  (pres_emit_of_not _ _ _ (by decide))
              next hf => exact Except.noConfusion h
        | lit v =>
            simp only [compileExpr] at h
            injection h with h
            subst h
            exact pres_trans (pres_addConstant _ _)
              (pres_emit_of_not _ _ _ (by decide))
      · -- compileExprList
        intro es st st2 h
        cases es with
        | nil =>
            simp only [compileExprList] at h
            injection h with h
            subst h
            exact pres_refl _
        | cons e rest =>
            simp only [compileExprList] at h
            split at h
            · exact Except.noConfusion h
            next st1 he =>
              exact pres_trans (ihE e st st1 he) (ihEs rest st1 st2 h)
      · -- compileStmt
        intro s st st2 h
        cases s with
        | varDecl name init =>
            simp only [compileStmt] at h
            split at h
            · exact Except.noConfusion h
            next stA hinit =>
              have p : Pres st stA := by
                split at hinit
                next e =>
                  exact ihE e st stA hinit
                next =>
                  injection hinit with hinit
                  subst hinit
                  exact pres_trans (pres_addConstant _ _)
                    (pres_emit_of_not _ _ _ (by decide))
              injection h with h
              subst h
              exact pres_trans p (pres_trans ⟨Nat.le_refl _, id⟩
                (pres_emit_of_not _ _ _ (by decide)))
        | funDecl name params body =>
            simp only [compileStmt] at h
            split at h
            · exact Except.noConfusion h
            next stA hb =>
              injection h with h
              subst h
              have pF : Pres st
                  { st with functions :=
                      assocSet st.functions name (st.instructions.length, params.length) } :=
                ⟨Nat.le_refl _, id⟩
              exact pres_trans pF
                (pres_trans (pres_storeParams params.reverse _)
                  (pres_trans (ihSs body _ stA hb)
                    (pres_trans (pres_addConstant _ _)
                      (pres_trans (pres_emit_of_not _ _ _ (by decide))
                        (pres_emit_of_not _ _ _ (by decide))))))
        | ifStmt cond thenS elseS =>
            simp only [compileStmt] at h
            split at h
            · exact Except.noConfusion h
            next st1 hc =>
              split at h
              · exact Except.noConfusion h
              next st3 hthen =>
                have p0 : Pres st st3 :=
                  pres_trans (ihE cond st st1 hc)
                    (pres_trans (pres_emit_le _ _ (Nat.zero_le _))
                      (ihS thenS _ st3 hthen))
                split at h
                next els =>
                  split at h
                  · exact Except.noConfusion h
                  next st4 hels =>
                    injection h with h
                    subst h
                    exact pres_trans p0
                      (pres_trans (pres_emit_le _ _ (Nat.zero_le _))
                        (pres_trans (pres_patch _ _)
                          (pres_trans (ihS els _ st4 hels) (pres_patch _ _))))
                next =>
                  injection h with h
                  subst h
                  exact pres_trans p0 (pres_patch _ _)
        | whileStmt cond body =>
            simp only [compileStmt] at h
            split at h
            · exact Except.noConfusion h
            next st1 hc =>
              split at h
              · exact Except.noConfusion h
              next st3 hbody =>
                injection h with h
                subst h
                have p1 := ihE cond st st1 hc
                have p2 : Pres st1 (emit st1 .JUMP_IF_FALSE (some 0)) :=
                  pres_emit_le _ _ (Nat.zero_le _)
                have p3 := ihS body _ st3 hbody
                have hle : st.instructions.length ≤ st3.instructions.length :=
                  p1.1.trans (p2.1.trans p3.1)
                exact pres_trans p1 (pres_trans p2 (pres_trans p3
                  (pres_trans (pres_emit_le st3 .JUMP hle) (pres_patch _ _))))
        | forStmt init cond inc body =>
            simp only [compileStmt] at h
            split at h
            · exact Except.noConfusion h
            next stI hinit =>
              have pI : Pres st stI := by
                split at hinit
                next i0 =>
                  split at hinit
                  · exact Except.noConfusion hinit
                  next s2 hk =>
                    split at hinit
                    · injection hinit with hinit
                      subst hinit
                      exact pres_trans (ihS i0 st s2 hk)
                        (pres_emit_of_not _ _ _ (by decide))
                    · injection hinit with hinit
                      subst hinit
                      exact ihS i0 st s2 hk
                next =>
                  injection hinit with hinit
                  subst hinit
                  exact pres_refl _
              split at h
              · exact Except.noConfusion h
              next stC hcond =>
                have pC : Pres stI stC := by
                  split at hcond
                  next c =>
                    exact ihE c stI stC hcond
                  next =>
                    injection hcond with hcond
                    subst hcond
                    exact pres_trans (pres_addConstant _ _)
                      (pres_emit_of_not _ _ _ (by decide))
                split at h
                · exact Except.noConfusion h
                next stB hbody =>
                  split at h
                  · exact Except.noConfusion h
                  next stK hinc =>
                    have pK : Pres (emit stC .JUMP_IF_FALSE (some 0)) stK := by
                      have pB : Pres (emit stC .JUMP_IF_FALSE (some 0)) stB :=
                        ihS body _ stB hbody
                      split at hinc
                      next e0 =>
                        split at hinc
                        · exact Except.noConfusion hinc
                        next s3 hke =>
                          injection hinc with hinc
                          subst hinc
                          exact pres_trans pB (pres_trans (ihE e0 stB s3 hke)
                            (pres_emit_of_not _ _ _ (by decide)))
                      next =>
                        injection hinc with hinc
                        subst hinc
                        exact pB
                    injection h with h
                    subst h
                    have p2 : Pres stC (emit stC .JUMP_IF_FALSE (some 0)) :=
                      pres_emit_le _ _ (Nat.zero_le _)
                    have hle : stI.instructions.length ≤ stK.instructions.length :=
                      pC.1.trans (p2.1.trans pK.1)
                    exact pres_trans pI (pres_trans pC (pres_trans p2 (pres_trans pK
                      (pres_trans (pres_emit_le stK .JUMP hle) (pres_patch _ _)))))
        | returnStmt v =>
            simp only [compileStmt] at h
            split at h
            · exact Except.noConfusion h
            next stA hval =>
              have p : Pres st stA := by
                split at hval
                next e =>
                  exact ihE e st stA hval
                next =>
                  injection hval with hval
                  subst hval
                  exact pres_trans (pres_addConstant _ _)
                    (pres_emit_of_not _ _ _ (by decide))
              injection h with h
              subst h
              exact pres_trans p (pres_emit_of_not _ _ _ (by decide))
        | block stmts =>
            simp only [compileStmt] at h
            exact ihSs stmts st st2 h
        | exprStmt e =>
            simp only [compileStmt] at h
            split at h
            · exact Except.noConfusion h
            next stA he =>
              injection h with h
              subst h
              exact pres_trans (ihE e st stA he) (pres_emit_of_not _ _ _ (by decide))
      · -- compileStmtList
        intro ss st st2 h
        cases ss with
        | nil =>
            simp only [compileStmtList] at h
            injection h with h
            subst h
            exact pres_refl _
        | cons s rest =>
            simp only [compileStmtList] at h
            split at h
            · exact Except.noConfusion h
            next st1 hs =>
              exact pres_trans (ihS s st st1 hs) (ihSs rest st1 st2 h)

end BytecodeGenerator

end MLang

namespace MLang

open VirtualMachine in
/-- C4: for every successfully compiled program, the operand of every
`JUMP`, `JUMP_IF_FALSE` and `JUMP_IF_TRUE` instruction is a valid
instruction index in `[0, length)`, and the final instruction is `HALT` —
including after the placeholder patching of `if`, `while` and `for`. -/
theorem generate_jump_targets_valid (fuel : Nat) (program : List Stmt) (bc : Bytecode)
    (h : BytecodeGenerator.generate fuel program = .ok bc) :
    (∀ i ∈ bc.instructions,
        (i.opcode = OpCode.JUMP ∨ i.opcode = OpCode.JUMP_IF_FALSE ∨
          i.opcode = OpCode.JUMP_IF_TRUE) →
        ∃ t, i.operand = some t ∧ t < bc.instructions.length) ∧
    bc.instructions.getLast? = some ⟨OpCode.HALT, none⟩ := by
  unfold BytecodeGenerator.generate at h
  split at h
  · exact Except.noConfusion h
  next st hc =>
    injection h with h
    subst h
    have hinv0 : BytecodeGenerator.GenInv BytecodeGenerator.initState := by
      intro i hi hj
      exact absurd hi (List.not_mem_nil i)
    have pinv : BytecodeGenerator.GenInv st :=
      ((BytecodeGenerator.compile_pres fuel).2.2.2 program BytecodeGenerator.initState st hc).2
        hinv0
    constructor
    · intro i hi hj
      have hi2 : i ∈ st.instructions ++ [(⟨OpCode.HALT, none⟩ : Instruction)] := hi
      rcases List.mem_append.1 hi2 with h1 | h2
      · obtain ⟨t, ht, hle⟩ := pinv i h1 hj
        refine ⟨t, ht, ?_⟩
        show t < (st.instructions ++ [(⟨OpCode.HALT, none⟩ : Instruction)]).length
        rw [List.length_append]
        simp only [List.length_cons, List.length_nil]
        omega
      · rw [List.mem_singleton] at h2
        subst h2
        exact absurd hj (by decide)
    · show (st.instructions ++ [(⟨OpCode.HALT, none⟩ : Instruction)]).getLast? = some ⟨OpCode.HALT, none⟩
      exact List.getLast?_concat _

/-- Witness for C4: `generate` succeeds on `demoProgram` (which exercises
all three jump-patching statement forms), the patched `JUMP_IF_FALSE` at
index 3 targets a valid index, and the program ends in `HALT`. -/
theorem generate_jump_targets_valid_witness :
    BytecodeGenerator.generate 100 demoProgram = .ok demoBytecode ∧
    8 < demoBytecode.instructions.length ∧
    demoBytecode.instructions.getLast? = some ⟨OpCode.HALT, none⟩ := by
  have hg : BytecodeGenerator.generate 100 demoProgram = .ok demoBytecode := by decide
  have hmain := generate_jump_targets_valid 100 demoProgram demoBytecode hg
  obtain ⟨t, ht, hlt⟩ :=
    hmain.1 (⟨.JUMP_IF_FALSE, some 8⟩ : Instruction) (by decide) (Or.inr (Or.inl rfl))
  injection ht with ht
  subst ht
  exact ⟨hg, hlt, hmain.2⟩

/-- C1: executing the compiled factorial program does not produce `["120"]`:
the VM's instruction switch has no `CALL` (or `RETURN`) case, so top-level
execution falls into the inline function body, reaches the emitted `CALL`,
and aborts with the default branch's unknown-opcode error, having produced
no output. -/
theorem fact_program_hits_unknown_opcode_CALL :
    runSource english factSource 1000 =
      .executed (.vmError ⟨[.num 0, .nan, .undefined, .undefined], [.undefined], [], 13, []⟩
        (.unknownOpcode .CALL)) := by
  decide

/-- C2: the compiler emits neither a jump over a function definition nor a
leading `HALT`: the compiled program for `function f() {} print(1);` begins
directly with the body's instructions (`LOAD_CONST null; RETURN` at indices
0–1, no guard), and execution enters the body at pc 0 with an empty call
stack — not via `CALL` — failing at the body's `RETURN`. -/
theorem function_body_enterable_without_CALL :
    compileSource english funSkipSource =
      .ok ⟨[⟨.LOAD_CONST, some 0⟩, ⟨.RETURN, none⟩, ⟨.LOAD_CONST, some 1⟩,
            ⟨.PRINT, some 1⟩, ⟨.POP, none⟩, ⟨.HALT, none⟩],
           [.null, .num 1]⟩ ∧
    runSource english funSkipSource 1000 =
      .executed (.vmError ⟨[.null], [], [], 1, []⟩ (.unknownOpcode .RETURN)) := by
  exact ⟨by decide, by decide⟩

/-- C3: a `var` declaration statement does not leave the operand stack
empty: `visitVarDeclaration` emits no `POP` after `STORE_VAR` (which pushes
the stored value back), so after `var x = 10;` the stack holds one value. -/
theorem var_statement_leaves_stack_depth_one :
    compileSource english varDeclSource =
      .ok ⟨[⟨.LOAD_CONST, some 0⟩, ⟨.STORE_VAR, some 0⟩, ⟨.HALT, none⟩], [.num 10]⟩ ∧
    finalStack (runSource english varDeclSource 1000) = some [.num 10] := by
  exact ⟨by decide, by decide⟩

/-- C5: a `MODULO` instruction with zero right-hand side does not raise
`DivisionByZero` (only `DIVIDE` checks the divisor): the handler always
succeeds, the JavaScript `%` yields NaN on a zero divisor, and the program
`print(1 % 0);` completes normally printing `NaN`. -/
theorem modulo_zero_rhs_is_nan_not_error :
    (∀ (instrs : List Instruction) (consts : List Value) (s : VirtualMachine.VMState),
        VirtualMachine.executeInstruction instrs consts ⟨.MODULO, none⟩ s =
          .ok { s with stack := jsMod (VirtualMachine.popJS (VirtualMachine.popJS s.stack).2).1 (VirtualMachine.popJS s.stack).1 :: (VirtualMachine.popJS (VirtualMachine.popJS s.stack).2).2 }) ∧
    jsMod (.num 1) (.num 0) = .nan ∧
    finalOutput (runSource english moduloZeroSource 1000) = some ["NaN"] := by
  exact ⟨fun instrs consts s => rfl, by decide, by decide⟩

/-- C6: popping from an empty operand stack does not make the VM fail:
JavaScript `Array.pop` yields `undefined`, so `ADD` on an empty stack pushes
NaN and completes, `POP` is a no-op, `JUMP_IF_FALSE` treats the popped
`undefined` as falsy and jumps, and `PRINT` prints `undefined` — no
StackUnderflow error exists anywhere in the VM. -/
theorem empty_stack_pops_do_not_fail :
    VirtualMachine.execute ⟨[⟨.ADD, none⟩], []⟩ 10 = .done ⟨[.nan], [], [], 1, []⟩ ∧
    VirtualMachine.execute ⟨[⟨.POP, none⟩], []⟩ 10 = .done ⟨[], [], [], 1, []⟩ ∧
    VirtualMachine.execute ⟨[⟨.JUMP_IF_FALSE, some 1⟩], []⟩ 10 =
      .done ⟨[], [], [], 1, []⟩ ∧
    VirtualMachine.execute ⟨[⟨.PRINT, some 1⟩], []⟩ 10 =
      .done ⟨[], [], [], 1, ["undefined"]⟩ := by
  exact ⟨by decide, by decide, by decide, by decide⟩

/-- C6 as amended: popping instructions executed on an empty operand stack
receive JavaScript `undefined` and continue, whatever the rest of the VM
state: `ADD` pushes NaN, `POP` changes nothing, `JUMP_IF_FALSE` treats the
popped `undefined` as falsy and jumps, and `PRINT` appends the line
`undefined`; no underflow check exists. -/
theorem empty_stack_pop_yields_undefined_and_continues :
    (∀ (instrs : List Instruction) (consts : List Value) (vars : List Value)
        (pc : Int) (out : List String) (cs : List VirtualMachine.Frame),
        VirtualMachine.executeInstruction instrs consts ⟨.ADD, none⟩ ⟨[], vars, cs, pc, out⟩ =
          .ok ⟨[.nan], vars, cs, pc, out⟩) ∧
    (∀ (instrs : List Instruction) (consts : List Value) (vars : List Value)
        (pc : Int) (out : List String) (cs : List VirtualMachine.Frame),
        VirtualMachine.executeInstruction instrs consts ⟨.POP, none⟩ ⟨[], vars, cs, pc, out⟩ =
          .ok ⟨[], vars, cs, pc, out⟩) ∧
    (∀ (instrs : List Instruction) (consts : List Value) (vars : List Value)
        (pc : Int) (out : List String) (cs : List VirtualMachine.Frame),
        VirtualMachine.executeInstruction instrs consts ⟨.JUMP_IF_FALSE, some 1⟩
            ⟨[], vars, cs, pc, out⟩ =
          .ok ⟨[], vars, cs, (1 : Int) - 1, out⟩) ∧
    (∀ (instrs : List Instruction) (consts : List Value) (vars : List Value)
        (pc : Int) (out : List String) (cs : List VirtualMachine.Frame),
        VirtualMachine.executeInstruction instrs consts ⟨.PRINT, some 1⟩
            ⟨[], vars, cs, pc, out⟩ =
          .ok ⟨[], vars, cs, pc, out ++ ["undefined"]⟩) := by
  refine ⟨fun _ _ _ _ _ _ => rfl, fun _ _ _ _ _ _ => rfl, fun _ _ _ _ _ _ => rfl,
    fun _ _ _ _ _ _ => rfl⟩

/-- C7 counterexample: in Hindi mode the language table maps `print` to the
surface spelling `print`, not `dikhaao`, and the compiler only special-cases
the names `print` and `achchidu`; so `agar (1 < 2) { dikhaao("ok"); }` does
not produce `["ok"]` — it fails compilation with the undefined-name error
for `dikhaao`. -/
theorem hindi_dikhaao_fails_compilation :
    runSource hindi hindiDikhaaoSource 1000 =
      .compileFailed (.undefinedVariable "dikhaao") ∧
    assocGet hindi.keywords "print" = some "print" := by
  exact ⟨by decide, by decide⟩

/-- C7 as amended: in Hindi mode the spelling of the print built-in is
`print` (the table's actual mapping), and
`agar (1 < 2) { print("ok"); }` compiles the call to a `PRINT` instruction
and produces exactly `["ok"]`. -/
theorem hindi_print_scenario_produces_ok :
    finalOutput (runSource hindi hindiPrintSource 1000) = some ["ok"] := by
  decide

/-- C8: `var s = "hi"; print(s + " " + 3);` produces exactly `["hi 3"]`:
`ADD` with a string operand converts both sides to text and concatenates,
left-associatively for the chained `+`. -/
theorem string_biased_add_scenario :
    finalOutput (runSource english concatSource 1000) = some ["hi 3"] ∧
    jsAdd (.str "hi") (.str " ") = .str "hi " ∧
    jsAdd (.str "hi ") (.num 3) = .str "hi 3" := by
  exact ⟨by decide, by decide, by decide⟩

/-- C9 counterexample: the multi-dot lexeme `1.2.3` is not reported as an
error at VM time (nor anywhere): `parseFloat` silently converts its longest
valid prefix at parse time, and `print(1.2.3);` completes normally printing
`1.2`. -/
theorem multi_dot_number_runs_without_error :
    finalOutput (runSource english multiDotSource 1000) = some ["1.2"] := by
  decide

/-- Helper for C9: the character loop of `Lexer.readNumber` consumes exactly
the maximal leading run of `[0-9.]` characters. -/
theorem readNumberAux_maximal_run (cs : List Char) :
    Lexer.readNumberAux cs = (cs.takeWhile isNumChar, cs.dropWhile isNumChar) := by
  induction cs with
  | nil => rfl
  | cons c rest ih =>
      cases h : isNumChar c <;>
        simp [Lexer.readNumberAux, h, ih, List.takeWhile_cons, List.dropWhile_cons]

/-- C9 as amended: the lexer consumes a maximal run of `[0-9.]` as a single
`NUMBER` token, accepting multi-dot lexemes; the parser then converts the
lexeme with `parseFloat`, which silently takes the longest valid numeric
prefix (`1.2.3` becomes `1.2`), so the conversion is resolved at parse time
and no error is reported at any stage. -/
theorem multi_dot_number_lexed_whole_and_truncated_silently :
    (∀ cs : List Char,
        Lexer.readNumberAux cs = (cs.takeWhile isNumChar, cs.dropWhile isNumChar)) ∧
    Lexer.tokenize english multiDotSource =
      [⟨.IDENTIFIER, "print", 1, 1⟩, ⟨.LPAREN, "(", 1, 6⟩,
       ⟨.NUMBER, "1.2.3", 1, 7⟩, ⟨.RPAREN, ")", 1, 12⟩,
       ⟨.SEMICOLON, ";", 1, 13⟩, ⟨.EOF, "", 1, 14⟩] ∧
    jsParseFloat "1.2.3" = .num (mkRat 12 10) ∧
    finalOutput (runSource english multiDotSource 1000) = some ["1.2"] := by
  exact ⟨readNumberAux_maximal_run, by decide, by decide, by decide⟩

/-- C10: a `PRINT` instruction with operand 0 (as compiled from `print()`)
is treated as printing one value — `instruction.operand || 1` turns 0 into
1 — so one value is popped anyway, and `print();` prints the single line
`undefined` (the pop of the empty stack) rather than an empty line. -/
theorem print_zero_operand_pops_one_value :
    (∀ (instrs : List Instruction) (consts : List Value) (s : VirtualMachine.VMState),
        VirtualMachine.executeInstruction instrs consts ⟨.PRINT, some 0⟩ s =
          .ok { s with stack := (VirtualMachine.popJS s.stack).2, output := s.output ++ [String.intercalate " " [jsToString (VirtualMachine.popJS s.stack).1]] }) ∧
    finalOutput (runSource english emptyPrintSource 1000) = some ["undefined"] := by
  exact ⟨fun instrs consts s => rfl, by decide⟩

end MLang
